import Mathlib

/-!
# Verification of the EUFS track generator (`TrackGenerator.py`)

This file shallowly embeds the track-generation core of
`eufs_launcher/src/eufs_launcher/TrackGenerator.py` and proves properties of
the embedding.

Modelling conventions:

* Python floats are modelled as exact rationals (`ℚ`).  The spec explicitly
  states that numeric precision is "visually/physically plausible", not
  bit-exact, so the embedding uses exact real (here: rational) arithmetic.
* Transcendental functions (`math.cos`, `math.sin`, `math.sqrt`, `math.tan`,
  `math.atan2`, `math.acos`, `math.pi`) do not take rational values in
  general, so they are supplied as an explicit parameter pack `RealOps` of
  rational-valued stand-ins.  Theorems constrain the stand-ins exactly where
  the source evaluates them (e.g. `sqrt 1 = 1`, or interval bounds matching
  the true values); closed evaluations instantiate the pack with functions
  that agree with the true real functions at every argument actually reached.
* Python exceptions are modelled with `Except PyErr`.  `int(x)` is truncation
  towards zero (`pytrunc`).
* Randomness (`uniform`, `randrange`) is replaced by explicit parameters or
  explicit streams of pre-drawn candidates, as the spec's design notes (§9)
  themselves suggest.
* Functions imported from `LauncherUtilities` (`normalize_vec`, `magnitude`,
  `calculate_tangent_vector`, …) are not part of the given sources; they are
  modelled from the spec (§2 "Vector/Angle Utilities") and marked as such.
-/

namespace TrackGen

/-- Python exceptions that the embedded code can raise. -/
inductive PyErr where
  | nameError
  | zeroDivisionError
  | indexError
  | valueError
  | singularMatrix
  | generationFailed
  deriving DecidableEq, Repr

/-- Python `int(x)` on a float: truncation towards zero. -/
def pytrunc (q : ℚ) : ℤ :=
  if q < 0 then -⌊-q⌋ else ⌊q⌋

/-- A 2D point/vector, as a pair of rationals. -/
abbrev Pt := ℚ × ℚ

/-- Pointwise subtraction of 2D vectors. -/
def vsub (a b : Pt) : Pt := (a.1 - b.1, a.2 - b.2)

/-- Rational-valued stand-ins for the transcendental functions used by the
source.  Theorems constrain these exactly at the arguments the source
evaluates them on. -/
structure RealOps where
  cosq : ℚ → ℚ
  sinq : ℚ → ℚ
  tanq : ℚ → ℚ
  sqrtq : ℚ → ℚ
  atan2q : ℚ → ℚ → ℚ
  acosq : ℚ → ℚ
  piq : ℚ

/-- Modelled from the spec: `magnitude` from the Vector/Angle Utilities
(§2), the euclidean norm `sqrt(x² + y²)`. -/
def magnitude (ops : RealOps) (v : Pt) : ℚ :=
  ops.sqrtq (v.1 * v.1 + v.2 * v.2)

/-- Modelled from the spec: `normalize_vec` from the Vector/Angle Utilities
(§2): division of a vector by its magnitude.  Dividing by a zero magnitude
raises `ZeroDivisionError` in Python. -/
def normalize_vec (ops : RealOps) (v : Pt) : Except PyErr Pt :=
  let m := magnitude ops v
  if m = 0 then .error .zeroDivisionError
  else .ok (v.1 / m, v.2 / m)

/-- Modelled from the spec: `calculate_tangent_vector` — §4.1: "exit tangent
computed from the last two sampled points" (the normalized difference of the
final two points). -/
def calculate_tangent_vector (ops : RealOps) (points : List Pt) : Except PyErr Pt :=
  match points.reverse with
  | a :: b :: _ => normalize_vec ops (vsub a b)
  | _ => .error .indexError

/-! ## `compactify_points` (source lines 848–860)

The source iterates over indices, records in `remove_list` every index whose
point equals the previous point (`make_int` is the identity here: the
function is only ever applied to integer points), and deletes the recorded
indices.  Deleting index `a` exactly when `points[a] == points[a-1]` is the
same as the structural recursion below, which keeps an element only when it
differs from its predecessor. -/

/-- Tail of `compactify_points`: drop every element equal to its predecessor
(`prev` is the previous element of the original list; when an element is
dropped it equals `prev`, so tracking the previous original element and
tracking the last kept element coincide). -/
def compactify_go (prev : ℤ × ℤ) : List (ℤ × ℤ) → List (ℤ × ℤ)
  | [] => []
  | y :: ys => if y = prev then compactify_go y ys else y :: compactify_go y ys

/-- `compactify_points` (source lines 848–860): remove every point equal to
its immediate predecessor. -/
def compactify_points : List (ℤ × ℤ) → List (ℤ × ℤ)
  | [] => []
  | x :: xs => x :: compactify_go x xs

/-! ## `check_if_overlap` (source lines 862–880) -/

/-- `points[:-10]` — drop the final 10 points (empty result when the list has
at most 10 points). -/
def drop_last_ten (points : List (ℤ × ℤ)) : List (ℤ × ℤ) :=
  points.take (points.length - 10)

/-- The synthetic points appended by `check_if_overlap`'s loop: one point per
consecutive pair of the (truncated) list whose Manhattan distance exceeds 1.
The loop's `range(1, len(points))` is evaluated before any `append`, so only
pairs of the truncated list are inspected, and appended points are never
re-inspected. -/
def diagonal_fillers (points : List (ℤ × ℤ)) : List (ℤ × ℤ) :=
  (points.zip points.tail).filterMap (fun sd =>
    let s := sd.1
    let e := sd.2
    if (e.1 - s.1).natAbs + (e.2 - s.2).natAbs > 1 then
      some (if e.1 > s.1 then (s.1 + 1, s.2) else (s.1 - 1, s.2))
    else none)

/-- `check_if_overlap` (source lines 862–880): drop the last 10 points,
append one synthetic point per far-apart consecutive pair, and report overlap
iff the resulting list contains a duplicate (`len(set(points)) != len(points)`). -/
def check_if_overlap (points : List (ℤ × ℤ)) : Bool :=
  let pts := drop_last_ten points
  let all := pts ++ diagonal_fillers pts
  !(decide all.Nodup)

/-! ## `convert_points_to_all_positive` (source lines 823–845) -/

/-- `max_neg_x` of the source: the fold `max_neg_x = min(x, max_neg_x)`
starting from 0 (and likewise for the other three accumulators). -/
def fold_min0 (xs : List ℚ) : ℚ := xs.foldl min 0

/-- `max_x` of the source: the fold `max_x = max(x, max_x)` starting at 0. -/
def fold_max0 (xs : List ℚ) : ℚ := xs.foldl max 0

/-- `convert_points_to_all_positive` (source lines 823–845): shift all points
by `(-max_neg_x + 10, -max_neg_y + 10)` and return them together with
`int(max_x - max_neg_x) + 20` and `int(max_y - max_neg_y) + 20`. -/
def convert_points_to_all_positive (xys : List Pt) : List Pt × ℤ × ℤ :=
  let max_neg_x := fold_min0 (xys.map Prod.fst)
  let max_neg_y := fold_min0 (xys.map Prod.snd)
  let max_x := fold_max0 (xys.map Prod.fst)
  let max_y := fold_max0 (xys.map Prod.snd)
  let padding : ℚ := 10
  let new_xys := xys.map (fun p => (p.1 - max_neg_x + padding, p.2 - max_neg_y + padding))
  (new_xys, pytrunc (max_x - max_neg_x) + 2 * 10, pytrunc (max_y - max_neg_y) + 2 * 10)

/-! ## Coordinate spans (for the spec's margin invariant) -/

/-- The strict span (max − min) of a list of rationals; 0 for the empty
list. -/
def span (xs : List ℚ) : ℚ :=
  match xs with
  | [] => 0
  | x :: rest => rest.foldl max x - rest.foldl min x

/-- The strict span of the x-coordinates of a point list. -/
def spanX (pts : List Pt) : ℚ := span (pts.map Prod.fst)

/-- The strict span of the y-coordinates of a point list. -/
def spanY (pts : List Pt) : ℚ := span (pts.map Prod.snd)

/-! ## Presets and configuration (source lines 97–208) -/

/-- `TrackGenerator.get_presets` (source lines 97–146): the fixed preset
table. -/
def get_presets : List (String × List ℚ) :=
  [("Contest Rules", [10, 80, 10, 25, 9/2, 10, 3, 1500, 0, 0]),
   ("Small Straights", [5, 40, 10, 25, 9/2, 10, 3, 700, 1, 0]),
   ("Computer Friendly", [10, 80, 5, 15, 9/2, 10, 3, 500, 1, 0]),
   ("Bezier", [10, 80, 5, 15, 9/2, 10, 3, 500, 1, 1])]

/-- `TrackGenerator.get_preset` (source lines 180–188).  The lookup loop
returns the matching preset's values.  The fallback line
`return get_preset("Contest Rules")` refers to the bare name `get_preset`,
which is unbound at module scope (the function is a static method of
`TrackGenerator`, and Python name resolution inside a function does not
search the enclosing class scope), so reaching it raises `NameError`. -/
def get_preset (name : String) : Except PyErr (List ℚ) :=
  match get_presets.find? (fun a => a.1 = name) with
  | some a => .ok a.2
  | none => .error .nameError

/-- The active constraint configuration (the class attributes set by
`TrackGenerator.set_data`). -/
structure Config where
  MIN_STRAIGHT : ℚ
  MAX_STRAIGHT : ℚ
  MIN_CONSTANT_TURN : ℚ
  MAX_CONSTANT_TURN : ℚ
  MIN_HAIRPIN : ℚ
  MAX_HAIRPIN : ℚ
  MAX_HAIRPIN_NUM : ℚ
  MIN_HAIRPIN_NUM : ℚ
  MAX_TRACK_LENGTH : ℚ
  LAX_GENERATION : Bool
  TRACK_MODE : String
  deriving DecidableEq, Repr

/-- `TrackGenerator.get_mode_from_number` (source lines 156–160). -/
def get_mode_from_number (num : ℚ) : String :=
  if num = 0 then "Circle&Line"
  else if num = 1 then "Bezier"
  else "Circle&Line"

/-- `TrackGenerator.set_data` (source lines 196–208): load a 10-field
constraint vector into the active configuration (out-of-range reads default
to 0; the source is only ever called with full 10-field vectors). -/
def set_data (values : List ℚ) : Config :=
  let v := fun i => values.getD i 0
  { MIN_STRAIGHT := v 0
    MAX_STRAIGHT := v 1
    MIN_CONSTANT_TURN := v 2
    MAX_CONSTANT_TURN := v 3
    MIN_HAIRPIN := v 4
    MAX_HAIRPIN := v 5
    MAX_HAIRPIN_NUM := v 6
    MIN_HAIRPIN_NUM := if v 6 > 0 then 1 else 0
    MAX_TRACK_LENGTH := v 7
    LAX_GENERATION := v 8 = 1
    TRACK_MODE := get_mode_from_number (v 9) }

/-! ## The Circle&Line composer's end-of-candidate constraint check
(source lines 419–428)

`generate_autocross_trackdrive_track` builds one candidate from random
draws; at the end (unless `LAX_GENERATION` is set) it restarts itself from
scratch when the final straight plus the initial straight exceeds
`MAX_STRAIGHT`, or — note the hardcoded literal in the source — when the
accumulated length exceeds `1500` (not `MAX_TRACK_LENGTH`).  The geometry of
one candidate is abstracted to the pair (final straight length, accumulated
total length); the check below is the source's restart condition verbatim. -/

/-- The restart condition of `generate_autocross_trackdrive_track`
(source lines 419–428): `true` means the candidate is discarded and the
strategy restarts. -/
def autocross_end_check (cfg : Config) (straight_length cur_track_length : ℚ) : Bool :=
  if !cfg.LAX_GENERATION then
    if straight_length + cfg.MIN_STRAIGHT > cfg.MAX_STRAIGHT then true
    else if cur_track_length > 1500 then true
    else false
  else false

/-- The restart recursion of `generate_autocross_trackdrive_track`: each list
element is the (final straight length, total accumulated length) of one
randomly composed candidate; the first candidate passing the end check is
returned.  `none` models non-termination of the unbounded recursion. -/
def autocross_restart_loop (cfg : Config) : List (ℚ × ℚ) → Option (ℚ × ℚ)
  | [] => none
  | c :: rest =>
      if autocross_end_check cfg c.1 c.2 then autocross_restart_loop cfg rest
      else some c

/-! ## `generate_straight` (source lines 791–820)

The source parameterizes the line by its slope: `angle =
calculate_vector_angle(tangent_in)` (the `atan2` of the tangent, a
Vector/Angle Utility modelled from the spec), `slope = math.tan(angle)`,
`tmax = length / sqrt(1 + slope²)`, negated when `angle * slope < 0`, and
samples `t` from `0` to `int(10 * ceil(|tmax|)) - 1` in steps of `1/10`. -/

/-- `generate_straight` (source lines 791–820). -/
def generate_straight (ops : RealOps) (start_point tangent_in normal_in : Pt)
    (length : ℚ) : List Pt × Pt × Pt × ℚ :=
  let angle := ops.atan2q tangent_in.2 tangent_in.1
  let slope := ops.tanq angle
  let tmax0 := length / ops.sqrtq (1 + slope * slope)
  let tmax := if angle * slope < 0 then -tmax0 else tmax0
  let startx := start_point.1
  let starty := start_point.2
  let points :=
    if 0 ≤ tmax then
      (List.range (10 * ⌈tmax⌉).toNat).map
        (fun t : ℕ => ((t : ℚ) / 10 + startx, slope * (t : ℚ) / 10 + starty))
    else
      (List.range (10 * ⌈-tmax⌉).toNat).map
        (fun t : ℕ => (-(t : ℚ) / 10 + startx, -(slope * (t : ℚ)) / 10 + starty))
  (points, tangent_in, normal_in, length)

/-! ## `get_parametric_circle` and `generate_constant_turn`
(source lines 743–786) -/

/-- `get_parametric_circle` (source lines 743–756): the point of the circle
through `start_point` around `center_point` at counterclockwise angular
distance `t * delta_angle`, via the rotation matrix. -/
def get_parametric_circle (ops : RealOps) (start_point center_point : Pt)
    (delta_angle : ℚ) (t : ℚ) : Pt :=
  let a := t * delta_angle
  let cos_a := ops.cosq a
  let sin_a := ops.sinq a
  let del_x := start_point.1 - center_point.1
  let del_y := start_point.2 - center_point.2
  (cos_a * del_x - sin_a * del_y + center_point.1,
   sin_a * del_x + cos_a * del_y + center_point.2)

/-- `generate_constant_turn` (source lines 760–786).  The random defaults for
`turn_against_normal`, `circle_percent` and `radius` are passed explicitly.
The comprehension `[circle_function(t/fidelity) for t in
range(0, int(fidelity)+1)]` divides by `fidelity = ceil(length)`: when
`fidelity = 0` Python raises `ZeroDivisionError` at `t = 0`, and when
`fidelity < 0` the range is empty, so `points[-1]` in the normal computation
raises `IndexError`. -/
def generate_constant_turn (ops : RealOps) (start_point tangent_in normal_in : Pt)
    (turn_against_normal : Bool) (circle_percent radius : ℚ) :
    Except PyErr (List Pt × Pt × Pt × ℚ) :=
  let normal_vec := if turn_against_normal then (-normal_in.1, -normal_in.2) else normal_in
  let center : Pt := (start_point.1 + normal_vec.1 * radius, start_point.2 + normal_vec.2 * radius)
  let turn_angle := circle_percent * ops.piq * 2
  let cross := tangent_in.1 * normal_vec.2 - tangent_in.2 * normal_vec.1
  let flipper : ℚ := if cross < 0 then -1 else 1
  let length := turn_angle * radius
  let fidelity : ℤ := ⌈length⌉
  if fidelity ≤ 0 then
    if fidelity = 0 then .error .zeroDivisionError else .error .indexError
  else
    let points := (List.range (fidelity.toNat + 1)).map
      (fun t : ℕ => get_parametric_circle ops start_point center (flipper * turn_angle)
        ((t : ℚ) / (fidelity : ℚ)))
    match normalize_vec ops (vsub (points.getLastD (0, 0)) center) with
    | .error e => .error e
    | .ok normal =>
      match calculate_tangent_vector ops points with
      | .error e => .error e
      | .ok tangent => .ok (points, tangent, normal, length)

/-! ## `generate_constant_turn_until_facing_point` (source lines 633–738)

The `recursed` flag of the source (which allows exactly one retry with the
turn direction flipped) is rendered as fuel: `fuel = 1` is the un-recursed
entry point, and the retry is made with `fuel = 0`.  The unused intermediate
values of the source (`cg`, `gs`, `s_new`) are omitted.  `np.linalg.inv`
raises on an exactly singular basis matrix; `math.acos` raises `ValueError`
outside `[-1, 1]`; and the source's `abs(r/x)` is a float division that
raises `ZeroDivisionError` when the goal coincides with the circle center
(`x = magnitude(gc) = 0`). -/

/-- The result quadruple of a segment generator: points, exit tangent, exit
normal, arc length. -/
abbrev SegResult := List Pt × Pt × Pt × ℚ

/-- The body of `generate_constant_turn_until_facing_point` (source lines
633–738).  `retry` is `some result-of-the-recursive-call` on the un-recursed
entry (`recursed=False` in the source) and `none` once recursed, so the
near-full-revolution guard `theta > 2*(31/32)*pi and not recursed` retries at
most once. -/
def gctufp_body (ops : RealOps) (start_point goal_point tangent_in normal_in : Pt)
    (turn_against_normal : Bool) (radius : ℚ)
    (retry : Option (Except PyErr SegResult)) : Except PyErr SegResult :=
  let s := start_point
  let r := radius
  let n0 : Pt := if turn_against_normal then (-normal_in.1, -normal_in.2) else normal_in
  match normalize_vec ops n0 with
  | .error e => .error e
  | .ok n =>
    let g := goal_point
    let c : Pt := (s.1 + r * n.1, s.2 + r * n.2)
    let gc := vsub g c
    let sc := vsub s c
    let t := tangent_in
    let x := magnitude ops gc
    if x = 0 then .error .zeroDivisionError
    else
      let x1 := if |r / x| > 1 then r else x
      let det := t.1 * n.2 - t.2 * n.1
      if det = 0 then .error .singularMatrix
      else
        let gp1 := (n.2 * gc.1 - n.1 * gc.2) / det
        let gp2 := (-t.2 * gc.1 + t.1 * gc.2) / det
        let quadrant : ℕ :=
          if (gp1 ≥ 0 ∧ -r ≤ gp2 ∧ gp2 ≤ 0) ∨ (gp1 ≥ r ∧ -r ≤ gp2) then 1
          else if (gp2 ≥ 0 ∧ 0 ≤ gp1 ∧ gp1 ≤ r) ∨ (gp2 ≥ r ∧ gp1 ≤ r) then 2
          else if (gp1 ≤ 0 ∧ 0 ≤ gp2 ∧ gp2 ≤ r) ∨ (gp1 ≤ -r ∧ gp2 ≤ r) then 3
          else 4
        let quadrant_angle := ((quadrant : ℚ) - 1) * ops.piq / 2
        let ca := ops.cosq quadrant_angle
        let sa := ops.sinq quadrant_angle
        let new_s : Pt := (ca * sc.1 - sa * sc.2, sa * sc.1 + ca * sc.2)
        let ratio := r / x1
        if ratio < -1 ∨ 1 < ratio then .error .valueError
        else
          let inner_angle := ops.acosq ratio
          let crossv := gc.1 * new_s.2 - gc.2 * new_s.1
          let dotv := gc.1 * new_s.1 + gc.2 * new_s.2
          let outer_angle :=
            if quadrant = 1 ∨ quadrant = 3 ∨ turn_against_normal = false then
              ops.atan2q |crossv| dotv
            else
              ops.atan2q |crossv| (-dotv)
          let theta := outer_angle - inner_angle + quadrant_angle
          match retry with
          | some res => if theta > 2 * (31/32) * ops.piq then res
                        else generate_constant_turn ops start_point tangent_in normal_in
                          turn_against_normal (theta / (ops.piq * 2)) radius
          | none => generate_constant_turn ops start_point tangent_in normal_in
                      turn_against_normal (theta / (ops.piq * 2)) radius

/-- `generate_constant_turn_until_facing_point` (source lines 633–738).
`fuel = 1` is the un-recursed entry point; the single retry with the flipped
turn direction runs with `fuel = 0`. -/
def generate_constant_turn_until_facing_point (ops : RealOps)
    (start_point goal_point tangent_in normal_in : Pt)
    (turn_against_normal : Bool) (radius : ℚ) :
    ℕ → Except PyErr SegResult
  | 0 => gctufp_body ops start_point goal_point tangent_in normal_in
          turn_against_normal radius none
  | fuel + 1 => gctufp_body ops start_point goal_point tangent_in normal_in
          turn_against_normal radius
          (some (generate_constant_turn_until_facing_point ops start_point goal_point
                  tangent_in normal_in (!turn_against_normal) radius fuel))

/-! ## `TrackGenerator.generate` (source lines 210–242)

One loop iteration calls `generate_function((0,0))`, which returns either
`convert_points_to_all_positive(xys)` for a fully composed candidate (the
normal exit of `generate_autocross_trackdrive_track` /
`generate_bezier_track`), or the early-abort value `(test, 0, 0)` returned
after a failed early overlap check, where `test` is the already
integer-rounded and compactified accumulated path and
`check_if_overlap(test)` was `True`.  A candidate attempt is abstracted to
this alternative; everything `generate` itself does with an attempt is
embedded exactly. -/

/-- One result of `generate_function` inside `TrackGenerator.generate`:
either a composed candidate (later normalized by
`convert_points_to_all_positive`), or the early-abort value `(test, 0, 0)`
of `generate_autocross_trackdrive_track` (source line 352). -/
inductive Attempt where
  | normal (xys : List Pt)
  | earlyAbort (test : List (ℤ × ℤ))

/-- Embed an integer point as a rational point. -/
def ofIntPt (p : ℤ × ℤ) : Pt := ((p.1 : ℚ), (p.2 : ℚ))

/-- `(int(x[0]), int(x[1]))` — the integer rounding of one point in
`TrackGenerator.generate` (source line 224). -/
def toIntPt (p : Pt) : ℤ × ℤ := (pytrunc p.1, pytrunc p.2)

/-- The value of the attempt as returned by `generate_function`. -/
def Attempt.value : Attempt → List Pt × ℤ × ℤ
  | .normal xys => convert_points_to_all_positive xys
  | .earlyAbort test => (test.map ofIntPt, 0, 0)

/-- Whether `TrackGenerator.generate`'s overlap re-check rejects an attempt
(source lines 224–226). -/
def Attempt.overlapped (a : Attempt) : Bool :=
  check_if_overlap (compactify_points (a.value.1.map toIntPt))

/-- The retry loop of `TrackGenerator.generate` (source lines 219–233):
`attempts i` is the candidate produced by the `i`-th call of
`generate_function`, `c` is `failure_count`, and `fuel` bounds the number of
loop iterations the model executes (`none` = the model ran out of fuel,
i.e. the concrete loop did not exit within that many iterations).  A failed
overlap check increments `failure_count`; the loop raises
`GenerationFailedException` as soon as `failure_count > 10000`, exits when
the candidate neither overlaps nor is empty, and otherwise iterates. -/
def generate_loop (attempts : ℕ → Attempt) : ℕ → ℕ → ℕ →
    Option (Except PyErr (List Pt × ℤ × ℤ))
  | _, _, 0 => none
  | i, c, fuel + 1 =>
    let a := attempts i
    if a.overlapped then
      if c + 1 > 10000 then some (.error .generationFailed)
      else generate_loop attempts (i + 1) (c + 1) fuel
    else if a.value.1 = [] then generate_loop attempts (i + 1) c fuel
    else some (.ok a.value)

/-- The two random reflections applied after the loop (source lines
236–239): flip x-coordinates to `-x + twidth` and/or y-coordinates to
`-y + theight`. -/
def apply_flips (xys : List Pt) (twidth theight : ℤ) (flipx flipy : Bool) : List Pt :=
  let xys1 := if flipx then xys.map (fun p => (-p.1 + (twidth : ℚ), p.2)) else xys
  if flipy then xys1.map (fun p => (p.1, -p.2 + (theight : ℚ))) else xys1

/-- `TrackGenerator.generate` (source lines 210–242): run the retry loop
(10002 iterations of fuel are enough to reach the 10001st failure, which
raises) and apply the random reflections to a successful candidate.  The two
booleans are the pre-drawn outcomes of `uniform(0,1) < 0.5`. -/
def generate (attempts : ℕ → Attempt) (flipx flipy : Bool) :
    Option (Except PyErr (List Pt × ℤ × ℤ)) :=
  match generate_loop attempts 0 0 10002 with
  | none => none
  | some (.error e) => some (.error e)
  | some (.ok (xys, twidth, theight)) =>
      some (.ok (apply_flips xys twidth theight flipx flipy, twidth, theight))

/-! ## Decidability of `Except` equality (for closed evaluations) -/

instance {ε α : Type} [DecidableEq ε] [DecidableEq α] : DecidableEq (Except ε α) := fun x y =>
  match x, y with
  | .ok a, .ok b =>
      if h : a = b then .isTrue (by rw [h])
      else .isFalse (fun hc => h (Except.ok.inj hc))
  | .error a, .error b =>
      if h : a = b then .isTrue (by rw [h])
      else .isFalse (fun hc => h (Except.error.inj hc))
  | .ok _, .error _ => .isFalse (fun hc => Except.noConfusion hc)
  | .error _, .ok _ => .isFalse (fun hc => Except.noConfusion hc)

/-! ## Concrete instantiations used in closed evaluations -/

/-- A concrete parameter pack for closed evaluations whose computations only
reach transcendental-function arguments where the true value is rational:
`atan2(0, 1) = 0`, `tan 0 = 0`, `sqrt 1 = 1`, and `355/113` is a stand-in for
π (`3.141592…`, accurate to 7 digits).  `cosq`/`sinq`/`acosq` are only used
in evaluations whose conclusions do not depend on them. -/
def ops_const : RealOps :=
  { cosq := fun _ => 0
    sinq := fun _ => 0
    tanq := fun _ => 0
    sqrtq := fun _ => 1
    atan2q := fun _ _ => 0
    acosq := fun _ => 0
    piq := 355/113 }

/-- Like `ops_const`, but with `sqrt 0 = 0` (the true value): used for the
degenerate goal-at-circle-center evaluation, which computes `sqrt` only at
`1` (the squared norm of the unit normal) and at `0` (the squared distance
from the goal to the circle center). -/
def ops_sqrt0 : RealOps :=
  { cosq := fun _ => 0
    sinq := fun _ => 0
    tanq := fun _ => 0
    sqrtq := fun q => if q = 0 then 0 else 1
    atan2q := fun _ _ => 0
    acosq := fun _ => 0
    piq := 355/113 }

/-- A parameter pack for the vertical-tangent evaluation of
`generate_straight`.  At tangent `(0,1)` the source computes
`slope = math.tan(math.atan2(1, 0))`; in exact real arithmetic
`tan(π/2)` is undefined (a pole), and in IEEE arithmetic Python evaluates
`math.tan(math.atan2(1.0, 0.0)) = 1.633123935319537e16` because `math.pi/2`
is not exactly π/2.  The pack uses that float value for the slope stand-in,
`157/100 ≈ π/2` for the angle, and the slope itself for
`sqrt(1 + slope²)` (the true value exceeds the slope by less than 10⁻¹⁶). -/
def ops_vertical : RealOps :=
  { cosq := fun _ => 0
    sinq := fun _ => 0
    tanq := fun _ => 16331239353195370
    sqrtq := fun _ => 16331239353195370
    atan2q := fun _ _ => 157/100
    acosq := fun _ => 0
    piq := 355/113 }

/-- A parameter pack for the quarter-circle evaluation of
`generate_constant_turn`: `355/113` stands in for π (accurate to 7 digits);
`cos`/`sin` return the true values rounded to 4 digits at the two angles the
conclusion depends on (`π/2`, at which the stand-in argument is `355/226`,
and `15π/32`), and the square-root stand-in is any positive value on positive
arguments (the conclusions about direction and length do not depend on its
magnitude). -/
def ops_quarter : RealOps :=
  { cosq := fun q => if q = 355/226 then 0 else 49/500
    sinq := fun q => if q = 355/226 then 1 else 9951/10000
    tanq := fun _ => 0
    sqrtq := fun q => if 0 < q then 1 else 0
    atan2q := fun _ _ => 0
    acosq := fun _ => 0
    piq := 355/113 }

/-- A constant attempt stream for closed evaluations of the generate loop:
every call of `generate_function` yields the two-point candidate
`[(0,0), (5,5)]`. -/
def attempts_const : ℕ → Attempt := fun _ => .normal [((0:ℚ), (0:ℚ)), (5, 5)]

/-- A convex lattice loop: the perimeter of an 8×8 square walked in unit
steps, ending where it started.  No lattice cell repeats except the closing
point, which lies inside the exempted 10-point tail. -/
def convex_loop : List (ℤ × ℤ) :=
  [(0,0),(1,0),(2,0),(3,0),(4,0),(5,0),(6,0),(7,0),(8,0),
   (8,1),(8,2),(8,3),(8,4),(8,5),(8,6),(8,7),(8,8),
   (7,8),(6,8),(5,8),(4,8),(3,8),(2,8),(1,8),(0,8),
   (0,7),(0,6),(0,5),(0,4),(0,3),(0,2),(0,1),(0,0)]

/-- A self-crossing figure-eight walk in unit steps: it passes through the
lattice cell `(2,0)` twice (indices 2 and 10), with more than 10 further
points afterwards so the repeated cell is outside the exempted tail. -/
def figure_eight : List (ℤ × ℤ) :=
  [(0,0),(1,0),(2,0),(3,0),(4,0),(4,1),(4,2),(3,2),(2,2),(2,1),(2,0),
   (2,-1),(2,-2),(1,-2),(0,-2),(-1,-2),(-2,-2),(-2,-1),(-2,0),(-2,1),(-2,2),(-1,2)]

/-! # Helper lemmas on folds and spans -/

theorem foldl_max_init_le (xs : List ℚ) (a : ℚ) : a ≤ xs.foldl max a := by
  induction xs generalizing a with
  | nil => simp
  | cons x xs ih => exact le_trans (le_max_left a x) (ih (max a x))

theorem foldl_max_le (xs : List ℚ) (a b : ℚ) (h1 : a ≤ b) (h2 : ∀ x ∈ xs, x ≤ b) :
    xs.foldl max a ≤ b := by
  induction xs generalizing a with
  | nil => exact h1
  | cons x xs ih =>
      simp only [List.foldl_cons]
      exact ih (max a x) (max_le h1 (h2 x (by simp))) (fun y hy => h2 y (by simp [hy]))

theorem mem_le_foldl_max (xs : List ℚ) (a x : ℚ) (hx : x ∈ xs) : x ≤ xs.foldl max a := by
  induction xs generalizing a with
  | nil => cases hx
  | cons y ys ih =>
      rcases List.mem_cons.mp hx with h | h
      · subst h
        exact le_trans (le_max_right a x) (foldl_max_init_le ys _)
      · exact ih _ h

theorem foldl_min_le_init (xs : List ℚ) (a : ℚ) : xs.foldl min a ≤ a := by
  induction xs generalizing a with
  | nil => simp
  | cons x xs ih => exact le_trans (ih (min a x)) (min_le_left a x)

theorem le_foldl_min (xs : List ℚ) (a b : ℚ) (h1 : b ≤ a) (h2 : ∀ x ∈ xs, b ≤ x) :
    b ≤ xs.foldl min a := by
  induction xs generalizing a with
  | nil => exact h1
  | cons x xs ih =>
      simp only [List.foldl_cons]
      exact ih (min a x) (le_min h1 (h2 x (by simp))) (fun y hy => h2 y (by simp [hy]))

theorem foldl_min_le_mem (xs : List ℚ) (a x : ℚ) (hx : x ∈ xs) : xs.foldl min a ≤ x := by
  induction xs generalizing a with
  | nil => cases hx
  | cons y ys ih =>
      rcases List.mem_cons.mp hx with h | h
      · subst h
        exact le_trans (foldl_min_le_init ys _) (min_le_right a x)
      · exact ih _ h

theorem span_le_of_bounds (xs : List ℚ) (lo hi : ℚ) (hlh : lo ≤ hi)
    (h : ∀ x ∈ xs, lo ≤ x ∧ x ≤ hi) : span xs ≤ hi - lo := by
  cases xs with
  | nil => simp only [span]; linarith
  | cons x rest =>
      have hx := h x (by simp)
      have hmax : rest.foldl max x ≤ hi :=
        foldl_max_le _ _ _ hx.2 (fun y hy => (h y (by simp [hy])).2)
      have hmin : lo ≤ rest.foldl min x :=
        le_foldl_min _ _ _ hx.1 (fun y hy => (h y (by simp [hy])).1)
      simp only [span]
      linarith

theorem foldl_max_map_range (f : ℕ → ℚ) (hf : Monotone f) (a : ℚ) :
    ∀ n, ((List.range (n + 1)).map f).foldl max a = max a (f n) := by
  intro n
  induction n with
  | zero => simp [List.range_succ]
  | succ n ih =>
      rw [List.range_succ, List.map_append, List.foldl_append, ih]
      simp only [List.map_cons, List.map_nil, List.foldl_cons, List.foldl_nil]
      rw [max_assoc, max_eq_right (hf (Nat.le_succ n))]

theorem foldl_min_map_range (f : ℕ → ℚ) (hf : Monotone f) (a : ℚ) :
    ∀ n, ((List.range (n + 1)).map f).foldl min a = min a (f 0) := by
  intro n
  induction n with
  | zero => simp [List.range_succ]
  | succ n ih =>
      rw [List.range_succ, List.map_append, List.foldl_append, ih]
      simp only [List.map_cons, List.map_nil, List.foldl_cons, List.foldl_nil]
      rw [min_assoc, min_eq_left (hf (Nat.zero_le (n + 1)))]

theorem span_map_range (f : ℕ → ℚ) (hf : Monotone f) (n : ℕ) :
    span ((List.range (n + 1)).map f) = f n - f 0 := by
  rw [List.range_succ_eq_map, List.map_cons, List.map_map]
  cases n with
  | zero => simp [span]
  | succ m =>
      have hg : Monotone (f ∘ Nat.succ) := fun i j hij => hf (Nat.succ_le_succ hij)
      simp only [span]
      rw [foldl_max_map_range _ hg _ m, foldl_min_map_range _ hg _ m]
      simp only [Function.comp]
      rw [max_eq_right (hf (Nat.zero_le (m + 1))), min_eq_left (hf (Nat.zero_le 1))]

/-! # Helper lemmas on `pytrunc` -/

theorem pytrunc_intCast (z : ℤ) : pytrunc (z : ℚ) = z := by
  unfold pytrunc
  split
  · rw [← Int.cast_neg, Int.floor_intCast]; omega
  · rw [Int.floor_intCast]

theorem pytrunc_eq_floor (q : ℚ) (h : 0 ≤ q) : pytrunc q = ⌊q⌋ := by
  unfold pytrunc
  rw [if_neg (not_lt.mpr h)]

theorem toIntPt_ofIntPt (p : ℤ × ℤ) : toIntPt (ofIntPt p) = p := by
  cases p with
  | mk a b => simp [toIntPt, ofIntPt, pytrunc_intCast]

/-! # Claim theorems -/

/-- C10: `check_if_overlap` returns `false` (no overlap) on every input list
of at most 10 points, whatever its geometry: the preprocessing step
`points[:-10]` leaves such a list empty. -/
theorem check_if_overlap_short (points : List (ℤ × ℤ)) (h : points.length ≤ 10) :
    check_if_overlap points = false := by
  have h0 : points.length - 10 = 0 := by omega
  simp [check_if_overlap, drop_last_ten, h0, diagonal_fillers]

/-- Witness for C10: a 3-point path that geometrically revisits `(0,0)` is
nevertheless classified as non-overlapping. -/
theorem check_if_overlap_short_witness :
    ([(0,0),(1,0),(0,0)] : List (ℤ × ℤ)).length ≤ 10 ∧
    check_if_overlap [(0,0),(1,0),(0,0)] = false :=
  ⟨by decide, check_if_overlap_short _ (by decide)⟩

/-- C3 (code bug): `get_preset` returns the stored 10-field vector for each
of the four known preset names, but for any unknown name the fallback line
`return get_preset("Contest Rules")` references the unbound module-level name
`get_preset` and raises `NameError` — it does not return the "Contest Rules"
vector, contradicting both the claim and the function's own log message
"Defaulting to Contest Rules". -/
theorem get_preset_unknown_raises :
    get_preset "Contest Rules" = .ok [10, 80, 10, 25, 9/2, 10, 3, 1500, 0, 0] ∧
    get_preset "Small Straights" = .ok [5, 40, 10, 25, 9/2, 10, 3, 700, 1, 0] ∧
    get_preset "Computer Friendly" = .ok [10, 80, 5, 15, 9/2, 10, 3, 500, 1, 0] ∧
    get_preset "Bezier" = .ok [10, 80, 5, 15, 9/2, 10, 3, 500, 1, 1] ∧
    get_preset "Open Rules" = .error .nameError := by
  refine ⟨?_, ?_, ?_, ?_, ?_⟩ <;> rfl

/-- C2 counterexample: with a configuration whose `MAX_TRACK_LENGTH` is `500`
and whose lax flag is off, a candidate of accumulated length `1000` (and
final straight `10`) passes the end-of-candidate check of
`generate_autocross_trackdrive_track` and is returned, exceeding the
configured maximum: the source compares against the literal `1500`, not
against `MAX_TRACK_LENGTH`. -/
theorem autocross_max_len_counterexample :
    (set_data [10, 80, 10, 25, 9/2, 10, 3, 500, 0, 0]).LAX_GENERATION = false ∧
    (set_data [10, 80, 10, 25, 9/2, 10, 3, 500, 0, 0]).MAX_TRACK_LENGTH = 500 ∧
    autocross_restart_loop (set_data [10, 80, 10, 25, 9/2, 10, 3, 500, 0, 0]) [(10, 1000)]
      = some (10, 1000) ∧
    ¬ ((1000 : ℚ) ≤ 500) := by
  refine ⟨rfl, by norm_num [set_data], ?_, by norm_num⟩
  norm_num [autocross_restart_loop, autocross_end_check, set_data]

/-- C2 (amended): when the lax flag is off, every candidate the Circle&Line
composer's restart loop returns has accumulated length at most the hardcoded
autocross limit `1500` — not the configured `MAX_TRACK_LENGTH`. -/
theorem autocross_restart_loop_bounds_1500 (cfg : Config) (cands : List (ℚ × ℚ)) (c : ℚ × ℚ)
    (hlax : cfg.LAX_GENERATION = false) (h : autocross_restart_loop cfg cands = some c) :
    c.2 ≤ 1500 := by
  induction cands with
  | nil => simp [autocross_restart_loop] at h
  | cons a rest ih =>
      rw [autocross_restart_loop] at h
      by_cases hch : autocross_end_check cfg a.1 a.2 = true
      · rw [if_pos hch] at h
        exact ih h
      · rw [if_neg hch] at h
        have hac : a = c := Option.some.inj h
        subst hac
        unfold autocross_end_check at hch
        rw [hlax] at hch
        simp only [Bool.not_false, if_true] at hch
        by_cases h1 : a.1 + cfg.MIN_STRAIGHT > cfg.MAX_STRAIGHT
        · rw [if_pos h1] at hch; exact absurd rfl hch
        · rw [if_neg h1] at hch
          by_cases h2 : a.2 > 1500
          · rw [if_pos h2] at hch; exact absurd rfl hch
          · exact le_of_not_lt h2

/-- Witness for C2's amended theorem: the Contest Rules configuration with a
single candidate of length 700 returns it, and 700 ≤ 1500. -/
theorem autocross_restart_loop_bounds_1500_witness :
    (set_data [10, 80, 10, 25, 9/2, 10, 3, 1500, 0, 0]).LAX_GENERATION = false ∧
    autocross_restart_loop (set_data [10, 80, 10, 25, 9/2, 10, 3, 1500, 0, 0]) [(10, 700)]
      = some (10, 700) ∧
    ((10 : ℚ), (700 : ℚ)).2 ≤ 1500 :=
  ⟨rfl, by norm_num [autocross_restart_loop, autocross_end_check, set_data],
    autocross_restart_loop_bounds_1500 (set_data [10, 80, 10, 25, 9/2, 10, 3, 1500, 0, 0])
      [(10, 700)] (10, 700) rfl
      (by norm_num [autocross_restart_loop, autocross_end_check, set_data])⟩

/-- A list has no duplicates iff every value occurs at most once
(multiplicity measured by `countP`, which is independent of `BEq`
instances). -/
theorem nodup_iff_countP_le_one (l : List (ℤ × ℤ)) :
    l.Nodup ↔ ∀ p, l.countP (fun q => q = p) ≤ 1 := by
  induction l with
  | nil => simp
  | cons x xs ih =>
      rw [List.nodup_cons]
      constructor
      · rintro ⟨hx, hnd⟩ p
        rw [List.countP_cons]
        by_cases hpx : x = p
        · subst hpx
          have h0 : xs.countP (fun q => decide (q = x)) = 0 := by
            rw [List.countP_eq_zero]
            intro a ha
            simp only [decide_eq_true_eq]
            intro hax
            exact hx (hax ▸ ha)
          simp [h0]
        · have hle := ih.mp hnd p
          simp only [decide_eq_true_eq, if_neg hpx]
          omega
      · intro hb
        refine ⟨fun hmem => ?_, ih.mpr fun p => ?_⟩
        · have hx := hb x
          rw [List.countP_cons] at hx
          have h1 : 0 < xs.countP (fun q => decide (q = x)) :=
            List.countP_pos_iff.mpr ⟨x, hmem, by simp⟩
          simp only [decide_eq_true_eq, if_true] at hx
          omega
        · have hp := hb p
          rw [List.countP_cons] at hp
          omega

/-- C4: `check_if_overlap` reports overlap iff, after dropping the final 10
points and appending one synthetic lattice point for every consecutive pair
at Manhattan distance above 1, some grid point occurs more than once in the
resulting list; it reports no overlap for the convex loop and overlap for
the self-crossing figure-eight walk. -/
theorem check_if_overlap_iff_dup :
    (∀ points : List (ℤ × ℤ),
        check_if_overlap points = true ↔
          ∃ p, 1 < ((drop_last_ten points) ++ diagonal_fillers (drop_last_ten points)).countP
                (fun q => q = p)) ∧
    check_if_overlap convex_loop = false ∧
    check_if_overlap figure_eight = true := by
  refine ⟨fun points => ?_, by decide, by decide⟩
  unfold check_if_overlap
  simp only [Bool.not_eq_true', decide_eq_false_iff_not, nodup_iff_countP_le_one,
    not_forall, not_le]

/-- Structural facts about every successful `generate_constant_turn` call:
the arc length is `radius * (circle_percent * 2π)`, the sample count is
`ceil(arc length) + 1`, the exit normal is the normalized vector from the
circle center to the final sample, and the exit tangent comes from the last
two samples. -/
theorem generate_constant_turn_ok_facts (ops : RealOps) (start t n : Pt) (b : Bool)
    (p r : ℚ) (pts : List Pt) (tv nv : Pt) (len : ℚ)
    (h : generate_constant_turn ops start t n b p r = .ok (pts, tv, nv, len)) :
    len = r * (p * (2 * ops.piq)) ∧
    pts.length = (⌈len⌉).toNat + 1 ∧
    normalize_vec ops (vsub (pts.getLastD (0, 0))
      (start.1 + (if b then ((-n.1 : ℚ), (-n.2 : ℚ)) else n).1 * r,
       start.2 + (if b then ((-n.1 : ℚ), (-n.2 : ℚ)) else n).2 * r)) = .ok nv ∧
    calculate_tangent_vector ops pts = .ok tv := by
  simp only [generate_constant_turn] at h
  set m : Pt := if b = true then ((-n.1 : ℚ), (-n.2 : ℚ)) else n with hm
  split at h
  · split at h <;> simp at h
  · split at h
    · simp at h
    · rename_i nrm heq
      split at h
      · simp at h
      · rename_i tang heq2
        rw [Except.ok.injEq] at h
        simp only [Prod.mk.injEq] at h
        obtain ⟨hpts, htv, hnv, hlen⟩ := h
        subst hpts
        subst htv
        subst hnv
        subst hlen
        refine ⟨by ring, by simp, heq, heq2⟩

/-- Concrete evaluation of `generate_straight` on a unit x-tangent with
requested length 20: the stand-ins are pinned to the true (rational) values
of the real functions at every argument the computation reaches. -/
theorem generate_straight_unit_x_eq (ops : RealOps) (sx sy : ℚ)
    (h1 : ops.atan2q 0 1 = 0) (h2 : ops.tanq 0 = 0) (h3 : ops.sqrtq 1 = 1) :
    generate_straight ops (sx, sy) (1, 0) (0, 1) 20 =
      ((List.range 200).map (fun t : ℕ => ((t : ℚ) / 10 + sx, 0 * (t : ℚ) / 10 + sy)),
        (1, 0), (0, 1), 20) := by
  unfold generate_straight
  simp only [h1, h2]
  norm_num [h3]
  rfl

/-- The facts C7 needs about that evaluation: x-span exactly 19.9 (not 20),
200 samples, all at the start height. -/
theorem generate_straight_unit_x_facts (ops : RealOps) (sx sy : ℚ)
    (h1 : ops.atan2q 0 1 = 0) (h2 : ops.tanq 0 = 0) (h3 : ops.sqrtq 1 = 1) :
    spanX (generate_straight ops (sx, sy) (1, 0) (0, 1) 20).1 = 199/10 ∧
    (generate_straight ops (sx, sy) (1, 0) (0, 1) 20).1.length = 200 ∧
    ∀ p ∈ (generate_straight ops (sx, sy) (1, 0) (0, 1) 20).1, p.2 = sy := by
  rw [generate_straight_unit_x_eq ops sx sy h1 h2 h3]
  refine ⟨?_, by simp, ?_⟩
  · have hf : Monotone (fun t : ℕ => (t : ℚ) / 10 + sx) := by
      intro a b hab
      have hq : (a : ℚ) ≤ (b : ℚ) := by exact_mod_cast hab
      have hd : (a : ℚ) / 10 ≤ (b : ℚ) / 10 := by linarith
      simpa using hd
    have h200 : (200 : ℕ) = 199 + 1 := rfl
    unfold spanX
    rw [List.map_map]
    have hcomp : (Prod.fst ∘ fun t : ℕ => ((t : ℚ) / 10 + sx, 0 * (t : ℚ) / 10 + sy)) =
        fun t : ℕ => (t : ℚ) / 10 + sx := rfl
    rw [hcomp, h200, span_map_range _ hf 199]
    norm_num
  · intro p hp
    rcases List.mem_map.mp hp with ⟨t, _, rfl⟩
    norm_num

/-- C7 (amended): `generate_straight` returns the tangent, the normal and the
requested length unchanged for every input, but with tangent `(1,0)` and
requested length 20 the produced points span exactly 19.9 units along x (the
sample at parameter 20 is excluded by the half-open sampling range), not 20;
all produced points lie at the start height. -/
theorem generate_straight_passthrough_span :
    (∀ (ops : RealOps) (start t n : Pt) (len : ℚ),
        (generate_straight ops start t n len).2 = (t, n, len)) ∧
    (∀ (ops : RealOps) (sx sy : ℚ),
        ops.atan2q 0 1 = 0 → ops.tanq 0 = 0 → ops.sqrtq 1 = 1 →
        spanX (generate_straight ops (sx, sy) (1, 0) (0, 1) 20).1 = 199/10 ∧
        (generate_straight ops (sx, sy) (1, 0) (0, 1) 20).1.length = 200 ∧
        ∀ p ∈ (generate_straight ops (sx, sy) (1, 0) (0, 1) 20).1, p.2 = sy) :=
  ⟨fun _ _ _ _ _ => rfl,
   fun ops sx sy h1 h2 h3 => generate_straight_unit_x_facts ops sx sy h1 h2 h3⟩

/-- Witness for C7's amended theorem at the concrete pack `ops_const`. -/
theorem generate_straight_passthrough_span_witness :
    ops_const.atan2q 0 1 = 0 ∧ ops_const.tanq 0 = 0 ∧ ops_const.sqrtq 1 = 1 ∧
    (spanX (generate_straight ops_const (0, 0) (1, 0) (0, 1) 20).1 = 199/10 ∧
     (generate_straight ops_const (0, 0) (1, 0) (0, 1) 20).1.length = 200 ∧
     ∀ p ∈ (generate_straight ops_const (0, 0) (1, 0) (0, 1) 20).1, p.2 = 0) :=
  ⟨rfl, rfl, rfl, generate_straight_passthrough_span.2 ops_const 0 0 rfl rfl rfl⟩

/-- C7 counterexample: with tangent `(1,0)` and requested length 20 the
produced points do **not** span 20 units along x (they span 19.9).
`ops_const` agrees with the true real functions at every argument this
computation reaches: `atan2(0,1) = 0`, `tan 0 = 0`, `sqrt 1 = 1`. -/
theorem generate_straight_span_ne_20 :
    ¬ spanX (generate_straight ops_const (0, 0) (1, 0) (0, 1) 20).1 = 20 := by
  have h := (generate_straight_unit_x_facts ops_const 0 0 rfl rfl rfl).1
  rw [h]
  norm_num

/-- C8 (code bug): `generate_straight` uses the slope-intercept
parameterization `slope = tan(atan2(tangent))` that the spec forbids.  For
the exactly vertical unit tangent `(0,1)` the real value `tan(π/2)` is
undefined; Python's float evaluation instead yields the enormous slope
`tan(float-π/2) ≈ 1.63·10¹⁶`, and under any slope stand-in that is merely
`≥ 1000` (with a square-root stand-in at least the slope, as the true
`sqrt(1+slope²)` is) some produced point lies at least 900 above the start —
the points do not advance along the tangent by the requested length 20. -/
theorem generate_straight_vertical_blowup (ops : RealOps) (sx sy : ℚ)
    (hang : 0 ≤ ops.atan2q 1 0)
    (hslope : 1000 ≤ ops.tanq (ops.atan2q 1 0))
    (hs_lo : ops.tanq (ops.atan2q 1 0) ≤
      ops.sqrtq (1 + ops.tanq (ops.atan2q 1 0) * ops.tanq (ops.atan2q 1 0))) :
    ∃ p ∈ (generate_straight ops (sx, sy) (0, 1) (-1, 0) 20).1, sy + 900 ≤ p.2 := by
  simp only [generate_straight]
  generalize hA : ops.atan2q 1 0 = A at hang hslope hs_lo ⊢
  generalize hM : ops.tanq A = M at hslope hs_lo ⊢
  generalize hS : ops.sqrtq (1 + M * M) = S at hs_lo ⊢
  have hS0 : (0:ℚ) < S := by linarith
  have hcond1 : ¬ (A * M < 0) := not_lt.mpr (mul_nonneg hang (by linarith))
  rw [if_neg hcond1]
  have htpos : (0:ℚ) < 20 / S := by positivity
  have htle : (20:ℚ) / S ≤ 1 := by
    rw [div_le_one hS0]
    linarith
  have hceil : (⌈(20:ℚ) / S⌉ : ℤ) = 1 := by
    rw [Int.ceil_eq_iff]
    constructor
    · push_cast
      linarith
    · push_cast
      linarith
  rw [if_pos (le_of_lt htpos), hceil]
  refine ⟨((9:ℕ) / 10 + sx, M * (9:ℕ) / 10 + sy), ?_, ?_⟩
  · refine List.mem_map.mpr ⟨9, ?_, rfl⟩
    decide
  · push_cast
    linarith

/-- Witness for C8 at the concrete pack `ops_vertical` (the float values
Python actually computes for a vertical tangent). -/
theorem generate_straight_vertical_blowup_witness :
    (0 ≤ ops_vertical.atan2q 1 0 ∧
     1000 ≤ ops_vertical.tanq (ops_vertical.atan2q 1 0) ∧
     ops_vertical.tanq (ops_vertical.atan2q 1 0) ≤
       ops_vertical.sqrtq (1 + ops_vertical.tanq (ops_vertical.atan2q 1 0) *
         ops_vertical.tanq (ops_vertical.atan2q 1 0))) ∧
    ∃ p ∈ (generate_straight ops_vertical (0, 0) (0, 1) (-1, 0) 20).1,
      (0 : ℚ) + 900 ≤ p.2 :=
  ⟨⟨by norm_num [ops_vertical], by norm_num [ops_vertical], by norm_num [ops_vertical]⟩,
    generate_straight_vertical_blowup ops_vertical 0 0 (by norm_num [ops_vertical])
      (by norm_num [ops_vertical]) (by norm_num [ops_vertical])⟩

/-- The quarter-circle evaluation of `generate_constant_turn`
(`circle_percent = 1/4`, `radius = 10`, tangent `(1,0)`, normal `(0,1)`, not
against the normal), under hypotheses pinning the stand-ins to intervals
containing the true real values: π to `(3.1415, 3.1416)`, `cos`/`sin` at the
two relevant sample angles (`15π/32` and `π/2`) to 4-digit windows around
their true values, and positivity of the square root on positive arguments.
The call succeeds, the arc length lies in `[15.7, 15.8]` (≈ `5π` ≈ 15.71)
with `ceil = 16` yet 17 samples, and the last two samples point upward
within slope `1/10` of the vertical — the exit tangent is approximately
`(0,1)`. -/
theorem generate_constant_turn_quarter (ops : RealOps)
    (hpi1 : 31415/10000 < ops.piq) (hpi2 : ops.piq < 31416/10000)
    (hsq : ∀ q : ℚ, 0 < q → ops.sqrtq q ≠ 0)
    (hc16lo : -1/1000 ≤ ops.cosq (ops.piq/2)) (hc16hi : ops.cosq (ops.piq/2) ≤ 1/1000)
    (hs16lo : 9999/10000 ≤ ops.sinq (ops.piq/2)) (hs16hi : ops.sinq (ops.piq/2) ≤ 1)
    (hc15lo : 975/10000 ≤ ops.cosq (15 * ops.piq / 32))
    (hc15hi : ops.cosq (15 * ops.piq / 32) ≤ 985/10000)
    (hs15lo : 995/1000 ≤ ops.sinq (15 * ops.piq / 32))
    (hs15hi : ops.sinq (15 * ops.piq / 32) ≤ 9953/10000) :
    ∃ pts tv nv len,
      generate_constant_turn ops (0,0) (1,0) (0,1) false (1/4) 10 = .ok (pts, tv, nv, len) ∧
      157/10 ≤ len ∧ len ≤ 158/10 ∧
      pts.length = 17 ∧ (⌈len⌉ : ℤ) = 16 ∧
      (∃ lst prv rest, pts.reverse = lst :: prv :: rest ∧
        0 < (vsub lst prv).2 ∧ 10 * |(vsub lst prv).1| ≤ (vsub lst prv).2) := by
  have hfid : (⌈(1/4 : ℚ) * ops.piq * 2 * 10⌉ : ℤ) = 16 := by
    rw [Int.ceil_eq_iff]
    constructor
    · push_cast
      linarith
    · push_cast
      linarith
  have hf16 : get_parametric_circle ops 0 (0,10) (1/4 * ops.piq * 2) (((16:ℕ):ℚ) / 16) =
      (10 * ops.sinq (ops.piq/2), 10 - 10 * ops.cosq (ops.piq/2)) := by
    unfold get_parametric_circle
    have ha : (((16:ℕ):ℚ) / 16) * (1/4 * ops.piq * 2) = ops.piq/2 := by
      push_cast
      ring
    rw [ha]
    refine Prod.ext ?_ ?_ <;> simp <;> ring
  have hf15 : get_parametric_circle ops 0 (0,10) (1/4 * ops.piq * 2) (((15:ℕ):ℚ) / 16) =
      (10 * ops.sinq (15 * ops.piq / 32), 10 - 10 * ops.cosq (15 * ops.piq / 32)) := by
    unfold get_parametric_circle
    have ha : (((15:ℕ):ℚ) / 16) * (1/4 * ops.piq * 2) = 15 * ops.piq / 32 := by
      push_cast
      ring
    rw [ha]
    refine Prod.ext ?_ ?_ <;> simp <;> ring
  set c16 := ops.cosq (ops.piq/2) with hc16
  set s16 := ops.sinq (ops.piq/2) with hs16
  set c15 := ops.cosq (15 * ops.piq / 32) with hc15
  set s15 := ops.sinq (15 * ops.piq / 32) with hs15
  have hrev : ((List.range 17).map
        (fun t : ℕ => get_parametric_circle ops 0 (0, 10) (1/4 * ops.piq * 2) ((t : ℚ) / 16))).reverse =
      (10 * s16, 10 - 10 * c16) :: (10 * s15, 10 - 10 * c15) ::
        ((List.range 15).map
          (fun t : ℕ => get_parametric_circle ops 0 (0, 10) (1/4 * ops.piq * 2) ((t : ℚ) / 16))).reverse := by
    have h17 : List.range 17 = List.range 15 ++ [15, 16] := by decide
    rw [h17, List.map_append, List.reverse_append]
    simp only [List.map_cons, List.map_nil, List.reverse_cons, List.reverse_nil,
      List.nil_append, List.cons_append, List.append_nil]
    rw [hf16, hf15]
  have hv16 : vsub (10 * s16, 10 - 10 * c16) ((0:ℚ), (10:ℚ)) = (10 * s16, -(10 * c16)) := by
    unfold vsub
    refine Prod.ext ?_ ?_ <;> simp <;> ring
  have hpos16 : (0:ℚ) < (10 * s16) * (10 * s16) + (-(10 * c16)) * (-(10 * c16)) := by
    nlinarith [hs16lo, mul_self_nonneg c16, mul_self_nonneg (s16 - 9999/10000)]
  have hmag16 : magnitude ops (10 * s16, -(10 * c16)) ≠ 0 := hsq _ hpos16
  have hnorm16 : normalize_vec ops (10 * s16, -(10 * c16)) =
      .ok ((10 * s16) / magnitude ops (10 * s16, -(10 * c16)),
           (-(10 * c16)) / magnitude ops (10 * s16, -(10 * c16))) := by
    unfold normalize_vec
    rw [if_neg hmag16]
  have hd : vsub (10 * s16, 10 - 10 * c16) (10 * s15, 10 - 10 * c15) =
      (10 * s16 - 10 * s15, 10 * c15 - 10 * c16) := by
    unfold vsub
    refine Prod.ext ?_ ?_ <;> simp <;> ring
  have hd2lo : (965:ℚ)/1000 ≤ 10 * c15 - 10 * c16 := by linarith
  have hdpos : (0:ℚ) < (10 * s16 - 10 * s15) * (10 * s16 - 10 * s15) +
      (10 * c15 - 10 * c16) * (10 * c15 - 10 * c16) := by
    nlinarith [hd2lo, mul_self_nonneg (10 * s16 - 10 * s15)]
  have hmagd : magnitude ops (10 * s16 - 10 * s15, 10 * c15 - 10 * c16) ≠ 0 := hsq _ hdpos
  have htan : calculate_tangent_vector ops ((List.range 17).map
        (fun t : ℕ => get_parametric_circle ops 0 (0, 10) (1/4 * ops.piq * 2) ((t : ℚ) / 16))) =
      .ok ((10 * s16 - 10 * s15) / magnitude ops (10 * s16 - 10 * s15, 10 * c15 - 10 * c16),
           (10 * c15 - 10 * c16) / magnitude ops (10 * s16 - 10 * s15, 10 * c15 - 10 * c16)) := by
    unfold calculate_tangent_vector
    rw [hrev]
    show normalize_vec ops (vsub ((10 * s16, 10 - 10 * c16) : Pt) ((10 * s15, 10 - 10 * c15) : Pt)) = _
    rw [hd]
    unfold normalize_vec
    rw [if_neg hmagd]
  refine ⟨(List.range 17).map
      (fun t : ℕ => get_parametric_circle ops 0 (0, 10) (1/4 * ops.piq * 2) ((t : ℚ) / 16)),
    ((10 * s16 - 10 * s15) / magnitude ops (10 * s16 - 10 * s15, 10 * c15 - 10 * c16),
      (10 * c15 - 10 * c16) / magnitude ops (10 * s16 - 10 * s15, 10 * c15 - 10 * c16)),
    ((10 * s16) / magnitude ops (10 * s16, -(10 * c16)),
      (-(10 * c16)) / magnitude ops (10 * s16, -(10 * c16))),
    1/4 * ops.piq * 2 * 10, ?_, ?_, ?_, ?_, ?_, ?_⟩
  · simp only [generate_constant_turn, hfid]
    norm_num
    rw [show Int.toNat 16 + 1 = 17 from rfl,
      show (List.range 17).getLast? = some 16 from by decide]
    simp only [Option.map_some', Option.getD_some]
    rw [hf16, hv16, hnorm16, htan]
  · linarith
  · linarith
  · simp
  · exact hfid
  · refine ⟨_, _, _, hrev, ?_, ?_⟩
    · rw [hd]
      show (0:ℚ) < 10 * c15 - 10 * c16
      linarith
    · rw [hd]
      show 10 * |10 * s16 - 10 * s15| ≤ 10 * c15 - 10 * c16
      have habs : |10 * s16 - 10 * s15| ≤ 1/20 := by
        rw [abs_le]
        constructor
        · linarith
        · linarith
      calc 10 * |10 * s16 - 10 * s15| ≤ 10 * (1/20) := by linarith [habs]
        _ ≤ 10 * c15 - 10 * c16 := by linarith

/-- C6 (amended): every successful `generate_constant_turn` call returns arc
length exactly `radius × (circlePercent × 2π)`, an exit normal equal to the
normalized vector from the circle center to the final sampled point, an exit
tangent computed from the last two samples, and a sample count **one more
than** `ceil(arc length)` (both arc endpoints are sampled; the spec's
"sample count = ceil(arc length)" is one short); in the quarter-circle
instance (`circle_percent = 0.25`, `radius = 10`, tangent `(1,0)`, normal
`(0,1)`, not against the normal) the arc length is ≈ 15.71 (within
`[15.7, 15.8]`, ceil 16, 17 samples) and the exit-tangent direction points
upward within slope 1/10 of the vertical — approximately `(0,1)`. -/
theorem generate_constant_turn_contract :
    (∀ (ops : RealOps) (start t n : Pt) (b : Bool) (p r : ℚ)
        (pts : List Pt) (tv nv : Pt) (len : ℚ),
      generate_constant_turn ops start t n b p r = .ok (pts, tv, nv, len) →
        len = r * (p * (2 * ops.piq)) ∧
        pts.length = (⌈len⌉).toNat + 1 ∧
        normalize_vec ops (vsub (pts.getLastD (0, 0))
          (start.1 + (if b then ((-n.1 : ℚ), (-n.2 : ℚ)) else n).1 * r,
           start.2 + (if b then ((-n.1 : ℚ), (-n.2 : ℚ)) else n).2 * r)) = .ok nv ∧
        calculate_tangent_vector ops pts = .ok tv) ∧
    (∀ ops : RealOps,
      31415/10000 < ops.piq → ops.piq < 31416/10000 →
      (∀ q : ℚ, 0 < q → ops.sqrtq q ≠ 0) →
      -1/1000 ≤ ops.cosq (ops.piq/2) → ops.cosq (ops.piq/2) ≤ 1/1000 →
      9999/10000 ≤ ops.sinq (ops.piq/2) → ops.sinq (ops.piq/2) ≤ 1 →
      975/10000 ≤ ops.cosq (15 * ops.piq / 32) →
      ops.cosq (15 * ops.piq / 32) ≤ 985/10000 →
      995/1000 ≤ ops.sinq (15 * ops.piq / 32) →
      ops.sinq (15 * ops.piq / 32) ≤ 9953/10000 →
      ∃ pts tv nv len,
        generate_constant_turn ops (0,0) (1,0) (0,1) false (1/4) 10 = .ok (pts, tv, nv, len) ∧
        157/10 ≤ len ∧ len ≤ 158/10 ∧
        pts.length = 17 ∧ (⌈len⌉ : ℤ) = 16 ∧
        (∃ lst prv rest, pts.reverse = lst :: prv :: rest ∧
          0 < (vsub lst prv).2 ∧ 10 * |(vsub lst prv).1| ≤ (vsub lst prv).2)) :=
  ⟨generate_constant_turn_ok_facts,
   fun ops h1 h2 h3 h4 h5 h6 h7 h8 h9 h10 h11 =>
     generate_constant_turn_quarter ops h1 h2 h3 h4 h5 h6 h7 h8 h9 h10 h11⟩

/-- Witness for C6's amended theorem at the concrete pack `ops_quarter`. -/
theorem generate_constant_turn_contract_witness :
    (31415/10000 < ops_quarter.piq ∧ ops_quarter.piq < 31416/10000 ∧
     (∀ q : ℚ, 0 < q → ops_quarter.sqrtq q ≠ 0) ∧
     -1/1000 ≤ ops_quarter.cosq (ops_quarter.piq/2) ∧
     ops_quarter.cosq (ops_quarter.piq/2) ≤ 1/1000 ∧
     9999/10000 ≤ ops_quarter.sinq (ops_quarter.piq/2) ∧
     ops_quarter.sinq (ops_quarter.piq/2) ≤ 1 ∧
     975/10000 ≤ ops_quarter.cosq (15 * ops_quarter.piq / 32) ∧
     ops_quarter.cosq (15 * ops_quarter.piq / 32) ≤ 985/10000 ∧
     995/1000 ≤ ops_quarter.sinq (15 * ops_quarter.piq / 32) ∧
     ops_quarter.sinq (15 * ops_quarter.piq / 32) ≤ 9953/10000) ∧
    (∃ pts tv nv len,
      generate_constant_turn ops_quarter (0,0) (1,0) (0,1) false (1/4) 10 = .ok (pts, tv, nv, len) ∧
      157/10 ≤ len ∧ len ≤ 158/10 ∧
      pts.length = 17 ∧ (⌈len⌉ : ℤ) = 16 ∧
      (∃ lst prv rest, pts.reverse = lst :: prv :: rest ∧
        0 < (vsub lst prv).2 ∧ 10 * |(vsub lst prv).1| ≤ (vsub lst prv).2)) :=
  ⟨⟨by norm_num [ops_quarter], by norm_num [ops_quarter],
    fun q hq => by simp only [ops_quarter, if_pos hq]; norm_num,
    by norm_num [ops_quarter], by norm_num [ops_quarter], by norm_num [ops_quarter],
    by norm_num [ops_quarter], by norm_num [ops_quarter], by norm_num [ops_quarter],
    by norm_num [ops_quarter], by norm_num [ops_quarter]⟩,
   generate_constant_turn_contract.2 ops_quarter
     (by norm_num [ops_quarter]) (by norm_num [ops_quarter])
     (fun q hq => by simp only [ops_quarter, if_pos hq]; norm_num)
     (by norm_num [ops_quarter]) (by norm_num [ops_quarter]) (by norm_num [ops_quarter])
     (by norm_num [ops_quarter]) (by norm_num [ops_quarter]) (by norm_num [ops_quarter])
     (by norm_num [ops_quarter]) (by norm_num [ops_quarter])⟩

/-- C6 counterexample: in the quarter-circle instance the call succeeds with
17 sampled points although `ceil(arc length) = 16`: the sample count is not
`ceil(arc length)` as the claim states. -/
theorem generate_constant_turn_count_ne_ceil :
    ∃ pts tv nv len,
      generate_constant_turn ops_quarter (0,0) (1,0) (0,1) false (1/4) 10 = .ok (pts, tv, nv, len) ∧
      pts.length ≠ (⌈len⌉).toNat := by
  obtain ⟨pts, tv, nv, len, hok, _, _, h17, hceil, _⟩ :=
    generate_constant_turn_quarter ops_quarter
      (by norm_num [ops_quarter]) (by norm_num [ops_quarter])
      (fun q hq => by simp only [ops_quarter, if_pos hq]; norm_num)
      (by norm_num [ops_quarter]) (by norm_num [ops_quarter]) (by norm_num [ops_quarter])
      (by norm_num [ops_quarter]) (by norm_num [ops_quarter]) (by norm_num [ops_quarter])
      (by norm_num [ops_quarter]) (by norm_num [ops_quarter])
  refine ⟨pts, tv, nv, len, hok, ?_⟩
  rw [h17, hceil]
  decide

/-! ## Lemmas about the `TrackGenerator.generate` retry loop -/

/-- If every attempt up to index 10000 overlaps, the loop raises
`GenerationFailedException` (needs enough fuel to reach the 10001st
failure). -/
theorem generate_loop_error_of_all (attempts : ℕ → Attempt) :
    ∀ (fuel i : ℕ), (∀ j, i ≤ j → j ≤ 10000 → (attempts j).overlapped = true) →
      i ≤ 10000 → 10002 ≤ fuel + i →
      generate_loop attempts i i fuel = some (.error .generationFailed) := by
  intro fuel
  induction fuel with
  | zero =>
      intro i _ hi hfuel
      omega
  | succ fuel ih =>
      intro i hall hi _
      rw [generate_loop]
      rw [hall i le_rfl hi]
      simp only [if_true]
      by_cases hc : i + 1 > 10000
      · rw [if_pos hc]
      · rw [if_neg hc]
        exact ih (i + 1) (fun j hj1 hj2 => hall j (by omega) hj2) (by omega) (by omega)

/-- If the loop raises, the error is `GenerationFailedException` and every
attempt up to index 10000 overlapped (assuming attempts are nonempty, as
every composed candidate is). -/
theorem generate_loop_all_of_error (attempts : ℕ → Attempt)
    (h_ne : ∀ i, (attempts i).value.1 ≠ []) :
    ∀ (fuel i : ℕ) (e : PyErr), generate_loop attempts i i fuel = some (.error e) →
      e = .generationFailed ∧ ∀ j, i ≤ j → j ≤ 10000 → (attempts j).overlapped = true := by
  intro fuel
  induction fuel with
  | zero =>
      intro i e h
      simp [generate_loop] at h
  | succ fuel ih =>
      intro i e h
      rw [generate_loop] at h
      by_cases hov : (attempts i).overlapped = true
      · rw [hov] at h
        simp only [if_true] at h
        by_cases hc : i + 1 > 10000
        · rw [if_pos hc] at h
          simp only [Option.some.injEq, Except.error.injEq] at h
          refine ⟨h.symm, fun j hj1 hj2 => ?_⟩
          have : j = i := by omega
          rw [this]
          exact hov
        · rw [if_neg hc] at h
          obtain ⟨he, hall⟩ := ih (i + 1) e h
          refine ⟨he, fun j hj1 hj2 => ?_⟩
          rcases Nat.eq_or_lt_of_le hj1 with heq | hlt
          · rw [← heq]
            exact hov
          · exact hall j (by omega) hj2
      · rw [Bool.not_eq_true] at hov
        rw [hov] at h
        simp only [Bool.false_eq_true, if_false, if_neg (h_ne i)] at h
        simp at h

/-- If the loop exits successfully, the result is the value of the first
non-overlapping attempt, at index at most 10000. -/
theorem generate_loop_ok_first (attempts : ℕ → Attempt)
    (h_ne : ∀ i, (attempts i).value.1 ≠ []) :
    ∀ (fuel i : ℕ) (r : List Pt × ℤ × ℤ), i ≤ 10000 →
      generate_loop attempts i i fuel = some (.ok r) →
      ∃ j, i ≤ j ∧ j ≤ 10000 ∧ (attempts j).overlapped = false ∧
        (∀ k, i ≤ k → k < j → (attempts k).overlapped = true) ∧
        r = (attempts j).value := by
  intro fuel
  induction fuel with
  | zero =>
      intro i r _ h
      simp [generate_loop] at h
  | succ fuel ih =>
      intro i r hi h
      rw [generate_loop] at h
      by_cases hov : (attempts i).overlapped = true
      · rw [hov] at h
        simp only [if_true] at h
        by_cases hc : i + 1 > 10000
        · rw [if_pos hc] at h
          simp at h
        · rw [if_neg hc] at h
          obtain ⟨j, hj1, hj2, hj3, hj4, hj5⟩ := ih (i + 1) r (by omega) h
          refine ⟨j, by omega, hj2, hj3, fun k hk1 hk2 => ?_, hj5⟩
          rcases Nat.eq_or_lt_of_le hk1 with heq | hlt
          · rw [← heq]
            exact hov
          · exact hj4 k (by omega) hk2
      · rw [Bool.not_eq_true] at hov
        rw [hov] at h
        simp only [Bool.false_eq_true, if_false, if_neg (h_ne i)] at h
        simp only [Option.some.injEq, Except.ok.injEq] at h
        exact ⟨i, le_rfl, hi, hov, fun k hk1 hk2 => by omega, h.symm⟩

/-- Without any nonemptiness assumption: a successful loop exit returns the
value of some non-overlapping, nonempty attempt. -/
theorem generate_loop_ok_weak (attempts : ℕ → Attempt) :
    ∀ (fuel i c : ℕ) (r : List Pt × ℤ × ℤ),
      generate_loop attempts i c fuel = some (.ok r) →
      ∃ j, (attempts j).overlapped = false ∧ r = (attempts j).value ∧
        (attempts j).value.1 ≠ [] := by
  intro fuel
  induction fuel with
  | zero =>
      intro i c r h
      simp [generate_loop] at h
  | succ fuel ih =>
      intro i c r h
      rw [generate_loop] at h
      by_cases hov : (attempts i).overlapped = true
      · rw [hov] at h
        simp only [if_true] at h
        by_cases hc : c + 1 > 10000
        · rw [if_pos hc] at h
          simp at h
        · rw [if_neg hc] at h
          exact ih (i + 1) (c + 1) r h
      · rw [Bool.not_eq_true] at hov
        rw [hov] at h
        simp only [Bool.false_eq_true, if_false] at h
        by_cases hem : (attempts i).value.1 = []
        · rw [if_pos hem] at h
          exact ih (i + 1) c r h
        · rw [if_neg hem] at h
          simp only [Option.some.injEq, Except.ok.injEq] at h
          exact ⟨i, hov, h.symm, hem⟩

/-- C5: `TrackGenerator.generate` raises `GenerationFailedException` exactly
when the first 10001 attempts (indices 0 through 10000) all fail the overlap
check; it is the only error it produces; and on success the result is the
normalized value of the first non-overlapping attempt (with the random
reflections applied) — no partial result escapes on failure. -/
theorem generate_retry_ceiling (attempts : ℕ → Attempt) (flipx flipy : Bool)
    (h_ne : ∀ i, (attempts i).value.1 ≠ []) :
    (generate attempts flipx flipy = some (.error .generationFailed) ↔
      ∀ j, j ≤ 10000 → (attempts j).overlapped = true) ∧
    (∀ e, generate attempts flipx flipy = some (.error e) → e = .generationFailed) ∧
    (∀ pts w h, generate attempts flipx flipy = some (.ok (pts, w, h)) →
      ∃ j, j ≤ 10000 ∧ (attempts j).overlapped = false ∧
        (∀ k, k < j → (attempts k).overlapped = true) ∧
        pts = apply_flips (attempts j).value.1 w h flipx flipy ∧
        w = (attempts j).value.2.1 ∧ h = (attempts j).value.2.2) := by
  refine ⟨⟨?_, ?_⟩, ?_, ?_⟩
  · intro h
    unfold generate at h
    cases hloop : generate_loop attempts 0 0 10002 with
    | none => rw [hloop] at h; simp at h
    | some res =>
        cases res with
        | error e =>
            obtain ⟨_, hall⟩ := generate_loop_all_of_error attempts h_ne 10002 0 e hloop
            exact fun j hj => hall j (Nat.zero_le j) hj
        | ok v =>
            rw [hloop] at h
            obtain ⟨v1, v2, v3⟩ := v
            simp at h
  · intro hall
    unfold generate
    rw [generate_loop_error_of_all attempts 10002 0 (fun j _ hj => hall j hj)
      (by omega) (by omega)]
  · intro e h
    unfold generate at h
    cases hloop : generate_loop attempts 0 0 10002 with
    | none => rw [hloop] at h; simp at h
    | some res =>
        cases res with
        | error e2 =>
            rw [hloop] at h
            simp only [Option.some.injEq, Except.error.injEq] at h
            rw [← h]
            exact (generate_loop_all_of_error attempts h_ne 10002 0 e2 hloop).1
        | ok v =>
            rw [hloop] at h
            obtain ⟨v1, v2, v3⟩ := v
            simp at h
  · intro pts w h hgen
    unfold generate at hgen
    cases hloop : generate_loop attempts 0 0 10002 with
    | none => rw [hloop] at hgen; simp at hgen
    | some res =>
        cases res with
        | error e => rw [hloop] at hgen; simp at hgen
        | ok v =>
            rw [hloop] at hgen
            obtain ⟨v1, v2, v3⟩ := v
            simp only [Option.some.injEq, Except.ok.injEq, Prod.mk.injEq] at hgen
            obtain ⟨hpts, hw, hh⟩ := hgen
            obtain ⟨j, _, hj2, hj3, hj4, hj5⟩ :=
              generate_loop_ok_first attempts h_ne 10002 0 (v1, v2, v3) (by omega) hloop
            refine ⟨j, hj2, hj3, fun k hk => hj4 k (Nat.zero_le k) hk, ?_, ?_, ?_⟩
            · subst hw
              subst hh
              rw [← hj5]
              exact hpts.symm
            · subst hw
              rw [← hj5]
            · subst hh
              rw [← hj5]

/-- Witness for C5 at the constant attempt stream. -/
theorem generate_retry_ceiling_witness :
    (∀ i : ℕ, (attempts_const i).value.1 ≠ []) ∧
    ((generate attempts_const false false = some (.error .generationFailed) ↔
      ∀ j, j ≤ 10000 → (attempts_const j).overlapped = true) ∧
     (∀ e, generate attempts_const false false = some (.error e) → e = .generationFailed) ∧
     (∀ pts w h, generate attempts_const false false = some (.ok (pts, w, h)) →
       ∃ j, j ≤ 10000 ∧ (attempts_const j).overlapped = false ∧
         (∀ k, k < j → (attempts_const k).overlapped = true) ∧
         pts = apply_flips (attempts_const j).value.1 w h false false ∧
         w = (attempts_const j).value.2.1 ∧ h = (attempts_const j).value.2.2)) := by
  have hne : ∀ i : ℕ, (attempts_const i).value.1 ≠ [] := by
    intro i
    simp [attempts_const, Attempt.value, convert_points_to_all_positive]
  exact ⟨hne, generate_retry_ceiling attempts_const false false hne⟩

/-! ## C1: the Generation Result contract -/

theorem map_toIntPt_ofIntPt (t : List (ℤ × ℤ)) : (t.map ofIntPt).map toIntPt = t := by
  rw [List.map_map]
  have hcomp : (toIntPt ∘ ofIntPt) = id := funext toIntPt_ofIntPt
  rw [hcomp, List.map_id]

/-- One coordinate of the normalize-then-maybe-reflect pipeline: every
produced value is nonnegative and the returned integer bound exceeds the
strict span by at least 10. -/
theorem scalar_contract (zs : List ℚ) (flip : Bool) :
    (∀ u ∈ zs.map (fun z =>
        if flip then -(z - fold_min0 zs + 10) +
          ((pytrunc (fold_max0 zs - fold_min0 zs) + 2 * 10 : ℤ) : ℚ)
        else z - fold_min0 zs + 10), 0 ≤ u) ∧
    span (zs.map (fun z =>
        if flip then -(z - fold_min0 zs + 10) +
          ((pytrunc (fold_max0 zs - fold_min0 zs) + 2 * 10 : ℤ) : ℚ)
        else z - fold_min0 zs + 10)) + 10 ≤
      ((pytrunc (fold_max0 zs - fold_min0 zs) + 2 * 10 : ℤ) : ℚ) := by
  have hmn : fold_min0 zs ≤ 0 := foldl_min_le_init zs 0
  have hmx : 0 ≤ fold_max0 zs := foldl_max_init_le zs 0
  have hbound : ∀ z ∈ zs, fold_min0 zs ≤ z ∧ z ≤ fold_max0 zs :=
    fun z hz => ⟨foldl_min_le_mem zs 0 z hz, mem_le_foldl_max zs 0 z hz⟩
  set mn := fold_min0 zs with hmn_def
  set mx := fold_max0 zs with hmx_def
  have hv : (0:ℚ) ≤ mx - mn := by linarith
  have htr : pytrunc (mx - mn) = ⌊mx - mn⌋ := pytrunc_eq_floor _ hv
  have hW : ((pytrunc (mx - mn) + 2 * 10 : ℤ) : ℚ) = ((⌊mx - mn⌋ : ℤ) : ℚ) + 20 := by
    rw [htr]
    push_cast
    ring
  have hfl1 : ((⌊mx - mn⌋ : ℤ) : ℚ) ≤ mx - mn := Int.floor_le _
  have hfl2 : mx - mn - 1 < ((⌊mx - mn⌋ : ℤ) : ℚ) := Int.sub_one_lt_floor _
  cases flip with
  | false =>
      simp only [Bool.false_eq_true, if_false]
      constructor
      · intro u hu
        rcases List.mem_map.mp hu with ⟨z, hz, rfl⟩
        have hb := hbound z hz
        linarith [hb.1]
      · have hspan : span (zs.map (fun z => z - mn + 10)) ≤ (mx - mn + 10) - 10 := by
          refine span_le_of_bounds _ 10 (mx - mn + 10) (by linarith) ?_
          intro u hu
          rcases List.mem_map.mp hu with ⟨z, hz, rfl⟩
          have hb := hbound z hz
          constructor <;> linarith [hb.1, hb.2]
        rw [hW]
        linarith
  | true =>
      simp only [if_true]
      constructor
      · intro u hu
        rcases List.mem_map.mp hu with ⟨z, hz, rfl⟩
        have hb := hbound z hz
        rw [hW]
        have hzmn : z - mn ≤ mx - mn := by linarith [hb.2]
        linarith
      · have hspan : span (zs.map (fun z =>
            -(z - mn + 10) + ((pytrunc (mx - mn) + 2 * 10 : ℤ) : ℚ))) ≤
            (((⌊mx - mn⌋ : ℤ) : ℚ) + 20 - 10) - (((⌊mx - mn⌋ : ℤ) : ℚ) + 20 - (mx - mn) - 10) := by
          refine span_le_of_bounds _ (((⌊mx - mn⌋ : ℤ) : ℚ) + 20 - (mx - mn) - 10)
            (((⌊mx - mn⌋ : ℤ) : ℚ) + 20 - 10) (by linarith) ?_
          intro u hu
          rcases List.mem_map.mp hu with ⟨z, hz, rfl⟩
          have hb := hbound z hz
          rw [hW]
          constructor <;> linarith [hb.1, hb.2]
        linarith

/-- The x- and y-coordinates of the normalized, maybe-reflected result, as
maps over the raw coordinates. -/
theorem flipped_coords (raw : List Pt) (fx fy : Bool) :
    (apply_flips (convert_points_to_all_positive raw).1
        (convert_points_to_all_positive raw).2.1 (convert_points_to_all_positive raw).2.2 fx fy).map Prod.fst
      = (raw.map Prod.fst).map (fun z =>
          if fx then -(z - fold_min0 (raw.map Prod.fst) + 10) +
            ((pytrunc (fold_max0 (raw.map Prod.fst) - fold_min0 (raw.map Prod.fst)) + 2 * 10 : ℤ) : ℚ)
          else z - fold_min0 (raw.map Prod.fst) + 10) ∧
    (apply_flips (convert_points_to_all_positive raw).1
        (convert_points_to_all_positive raw).2.1 (convert_points_to_all_positive raw).2.2 fx fy).map Prod.snd
      = (raw.map Prod.snd).map (fun z =>
          if fy then -(z - fold_min0 (raw.map Prod.snd) + 10) +
            ((pytrunc (fold_max0 (raw.map Prod.snd) - fold_min0 (raw.map Prod.snd)) + 2 * 10 : ℤ) : ℚ)
          else z - fold_min0 (raw.map Prod.snd) + 10) := by
  unfold apply_flips convert_points_to_all_positive
  cases fx <;> cases fy <;>
    simp only [Bool.false_eq_true, if_false, if_true, List.map_map] <;>
    exact ⟨rfl, rfl⟩

/-- The Generation Result contract holds for the normalization plus any
combination of reflections. -/
theorem convert_flips_contract (raw : List Pt) (fx fy : Bool) :
    (∀ p ∈ apply_flips (convert_points_to_all_positive raw).1
        (convert_points_to_all_positive raw).2.1 (convert_points_to_all_positive raw).2.2 fx fy,
      0 ≤ p.1 ∧ 0 ≤ p.2) ∧
    spanX (apply_flips (convert_points_to_all_positive raw).1
        (convert_points_to_all_positive raw).2.1 (convert_points_to_all_positive raw).2.2 fx fy) + 10 ≤
      (((convert_points_to_all_positive raw).2.1 : ℤ) : ℚ) ∧
    spanY (apply_flips (convert_points_to_all_positive raw).1
        (convert_points_to_all_positive raw).2.1 (convert_points_to_all_positive raw).2.2 fx fy) + 10 ≤
      (((convert_points_to_all_positive raw).2.2 : ℤ) : ℚ) := by
  obtain ⟨hx, hy⟩ := flipped_coords raw fx fy
  obtain ⟨hpx, hsx⟩ := scalar_contract (raw.map Prod.fst) fx
  obtain ⟨hpy, hsy⟩ := scalar_contract (raw.map Prod.snd) fy
  refine ⟨?_, ?_, ?_⟩
  · intro p hp
    constructor
    · exact hpx _ (hx ▸ List.mem_map_of_mem Prod.fst hp)
    · exact hpy _ (hy ▸ List.mem_map_of_mem Prod.snd hp)
  · unfold spanX
    rw [hx]
    exact hsx
  · unfold spanY
    rw [hy]
    exact hsy

/-- C1: every successful `TrackGenerator.generate` call returns points whose
coordinates are all nonnegative, and the returned integer width and height
are each at least 10 greater than the strict span of the returned x- and
y-coordinates — including after the random x-axis and y-axis reflections
applied after normalization.  The `h_ea` hypothesis records what the
composer guarantees about early-abort attempts (their point list already
failed the overlap check), which makes them impossible as successful
results. -/
theorem generate_result_margin (attempts : ℕ → Attempt) (flipx flipy : Bool)
    (h_ea : ∀ i t, attempts i = .earlyAbort t → check_if_overlap (compactify_points t) = true)
    (pts : List Pt) (w h : ℤ)
    (hok : generate attempts flipx flipy = some (.ok (pts, w, h))) :
    (∀ p ∈ pts, 0 ≤ p.1 ∧ 0 ≤ p.2) ∧
    spanX pts + 10 ≤ (w : ℚ) ∧ spanY pts + 10 ≤ (h : ℚ) := by
  unfold generate at hok
  cases hloop : generate_loop attempts 0 0 10002 with
  | none => rw [hloop] at hok; simp at hok
  | some res =>
      cases res with
      | error e => rw [hloop] at hok; simp at hok
      | ok v =>
          rw [hloop] at hok
          obtain ⟨v1, v2, v3⟩ := v
          simp only [Option.some.injEq, Except.ok.injEq, Prod.mk.injEq] at hok
          obtain ⟨hpts, hw, hh⟩ := hok
          obtain ⟨j, hov, hval, hnem⟩ := generate_loop_ok_weak attempts 10002 0 0 (v1, v2, v3) hloop
          cases hat : attempts j with
          | earlyAbort t =>
              exfalso
              have hovt : (attempts j).overlapped = true := by
                unfold Attempt.overlapped
                rw [hat]
                show check_if_overlap (compactify_points ((t.map ofIntPt).map toIntPt)) = true
                rw [map_toIntPt_ofIntPt]
                exact h_ea j t hat
              rw [hovt] at hov
              exact Bool.noConfusion hov
          | normal raw =>
              have hval2 : (v1, v2, v3) = convert_points_to_all_positive raw := by
                rw [hval, hat]
                rfl
              rw [Prod.mk.injEq, Prod.mk.injEq] at hval2
              obtain ⟨h1, h2, h3⟩ := hval2
              subst hpts
              subst hw
              subst hh
              subst h1
              subst h2
              subst h3
              exact convert_flips_contract raw flipx flipy

/-- Witness for C1: the constant two-point attempt stream with both
reflections drawn; the result is `[(15,15), (10,10)]` with bounds 25×25. -/
theorem generate_result_margin_witness :
    (∀ i t, attempts_const i = .earlyAbort t → check_if_overlap (compactify_points t) = true) ∧
    generate attempts_const true true = some (.ok ([((15:ℚ),(15:ℚ)),(10,10)], 25, 25)) ∧
    ((∀ p ∈ ([((15:ℚ),(15:ℚ)),(10,10)] : List Pt), 0 ≤ p.1 ∧ 0 ≤ p.2) ∧
     spanX [((15:ℚ),(15:ℚ)),(10,10)] + 10 ≤ ((25:ℤ) : ℚ) ∧
     spanY [((15:ℚ),(15:ℚ)),(10,10)] + 10 ≤ ((25:ℤ) : ℚ)) := by
  have h_ea : ∀ i t, attempts_const i = .earlyAbort t →
      check_if_overlap (compactify_points t) = true := by
    intro i t ht
    exact Attempt.noConfusion ht
  have hconv : convert_points_to_all_positive [((0:ℚ),(0:ℚ)), (5,5)] =
      ([(10,10),(15,15)], 25, 25) := by
    unfold convert_points_to_all_positive fold_min0 fold_max0
    norm_num [pytrunc]
  have hval : (attempts_const 0).value = ([((10:ℚ),(10:ℚ)),(15,15)], 25, 25) := by
    show convert_points_to_all_positive [((0:ℚ),(0:ℚ)), (5,5)] = _
    exact hconv
  have hover : (attempts_const 0).overlapped = false := by
    unfold Attempt.overlapped
    rw [hval]
    show check_if_overlap (compactify_points ([((10:ℚ),(10:ℚ)),(15,15)].map toIntPt)) = false
    have hmap : [((10:ℚ),(10:ℚ)),(15,15)].map toIntPt = [(10,10),(15,15)] := by
      norm_num [toIntPt, pytrunc]
    rw [hmap]
    decide
  have hloop : generate_loop attempts_const 0 0 10002 =
      some (.ok ([((10:ℚ),(10:ℚ)),(15,15)], 25, 25)) := by
    rw [show (10002:ℕ) = 10001 + 1 from rfl, generate_loop]
    rw [hover]
    simp only [Bool.false_eq_true, if_false]
    rw [hval]
    simp
  have hflip : apply_flips [((10:ℚ),(10:ℚ)),(15,15)] 25 25 true true =
      [(15,15),(10,10)] := by
    unfold apply_flips
    norm_num
  have hgen : generate attempts_const true true =
      some (.ok ([((15:ℚ),(15:ℚ)),(10,10)], 25, 25)) := by
    unfold generate
    rw [hloop]
    show (some (Except.ok (apply_flips [((10:ℚ),(10:ℚ)),(15,15)] 25 25 true true, (25:ℤ), (25:ℤ)))
        : Option (Except PyErr (List Pt × ℤ × ℤ))) =
      some (Except.ok ([((15:ℚ),(15:ℚ)),(10,10)], 25, 25))
    rw [hflip]
  exact ⟨h_ea, hgen,
    generate_result_margin attempts_const true true h_ea [((15:ℚ),(15:ℚ)),(10,10)] 25 25 hgen⟩

/-! ## C9: the degenerate-goal behaviour of the arc-to-goal solver -/

/-- C9 counterexample: with the goal exactly at the computed circle center
(start `(0,0)`, unit normal `(0,1)`, radius `10`, goal `(0,10)`), the
distance `x = magnitude(gc)` is `0` and the source's `abs(r/x)` raises
`ZeroDivisionError` — the degeneracy is not clamped away. -/
theorem gctufp_goal_at_center_raises :
    generate_constant_turn_until_facing_point ops_sqrt0 (0, 0) (0, 10) (1, 0) (0, 1) false 10 1 =
      .error .zeroDivisionError := by
  show gctufp_body ops_sqrt0 (0, 0) (0, 10) (1, 0) (0, 1) false 10
      (some (gctufp_body ops_sqrt0 (0, 0) (0, 10) (1, 0) (0, 1) true 10 none)) =
    .error .zeroDivisionError
  norm_num [gctufp_body, normalize_vec, magnitude, vsub, ops_sqrt0]

/-- The clamped `acos` argument `r / (x if |r/x| ≤ 1 else r)` always lies in
`[-1, 1]`. -/
theorem clamp_ratio_in_range (r X : ℚ) :
    ¬(r / (if |r / X| > 1 then r else X) < -1 ∨
      1 < r / (if |r / X| > 1 then r else X)) := by
  by_cases hc : |r / X| > 1
  · rw [if_pos hc]
    have hr : r ≠ 0 := by
      intro h0
      rw [h0, zero_div, abs_zero] at hc
      exact absurd hc (by norm_num)
    rw [div_self hr]
    norm_num
  · rw [if_neg hc]
    push_neg at hc ⊢
    have habs := abs_le.mp hc
    exact ⟨by linarith [habs.1], by linarith [habs.2]⟩

/-- The near-full-revolution guard either returns the retry result or
delegates; stated over an abstract condition so the huge angle term never
has to be named. -/
theorem retry_step_cases (ops : RealOps) (s t nrm : Pt) (b : Bool) (r : ℚ)
    (c : Prop) [Decidable c] (res : Except PyErr SegResult) (cp0 : ℚ) :
    (∃ cp, (if c then res else generate_constant_turn ops s t nrm b cp0 r) =
        generate_constant_turn ops s t nrm b cp r) ∨
    (∃ res2, some res = some res2 ∧
      (if c then res else generate_constant_turn ops s t nrm b cp0 r) = res2) := by
  by_cases h : c
  · rw [if_pos h]
    exact Or.inr ⟨res, rfl, rfl⟩
  · rw [if_neg h]
    exact Or.inl ⟨cp0, rfl⟩

/-- One pass of the solver body either delegates to `generate_constant_turn`
or returns the supplied retry result, provided the effective normal is a
unit vector independent of the tangent and the goal is not at the circle
center. -/
theorem gctufp_body_delegates (ops : RealOps) (s g t nrm : Pt) (b : Bool) (r : ℚ)
    (retry : Option (Except PyErr SegResult)) (nv : Pt)
    (hif : (if b = true then ((-nrm.1, -nrm.2) : Pt) else nrm) = nv)
    (hnv : nv.1 * nv.1 + nv.2 * nv.2 = 1)
    (hdet : t.1 * nv.2 - t.2 * nv.1 ≠ 0)
    (hsq : ops.sqrtq 1 = 1)
    (hx : magnitude ops (vsub g (s.1 + r * nv.1, s.2 + r * nv.2)) ≠ 0) :
    (∃ cp, gctufp_body ops s g t nrm b r retry =
        generate_constant_turn ops s t nrm b cp r) ∨
    (∃ res, retry = some res ∧ gctufp_body ops s g t nrm b r retry = res) := by
  have hmagn : magnitude ops nv = 1 := by
    unfold magnitude
    rw [hnv, hsq]
  have hnorm : normalize_vec ops (if b = true then ((-nrm.1, -nrm.2) : Pt) else nrm) =
      .ok nv := by
    rw [hif]
    simp only [normalize_vec]
    rw [hmagn]
    norm_num
  simp only [gctufp_body, hnorm]
  rw [if_neg hx, if_neg hdet,
    if_neg (clamp_ratio_in_range r (magnitude ops (vsub g (s.1 + r * nv.1, s.2 + r * nv.2))))]
  cases retry with
  | none =>
      left
      exact ⟨_, rfl⟩
  | some res =>
      exact retry_step_cases ops s t nrm b r _ res _

/-- The full solver (one allowed retry) with both effective normals
nondegenerate reduces to a single delegation. -/
theorem gctufp_fuel1_delegates_aux (ops : RealOps) (s g t nrm : Pt) (b : Bool) (r : ℚ)
    (nvo nvi : Pt)
    (hifo : (if b = true then ((-nrm.1, -nrm.2) : Pt) else nrm) = nvo)
    (hifi : (if (!b) = true then ((-nrm.1, -nrm.2) : Pt) else nrm) = nvi)
    (hnvo : nvo.1 * nvo.1 + nvo.2 * nvo.2 = 1)
    (hnvi : nvi.1 * nvi.1 + nvi.2 * nvi.2 = 1)
    (hdeto : t.1 * nvo.2 - t.2 * nvo.1 ≠ 0)
    (hdeti : t.1 * nvi.2 - t.2 * nvi.1 ≠ 0)
    (hsq : ops.sqrtq 1 = 1)
    (hxo : magnitude ops (vsub g (s.1 + r * nvo.1, s.2 + r * nvo.2)) ≠ 0)
    (hxi : magnitude ops (vsub g (s.1 + r * nvi.1, s.2 + r * nvi.2)) ≠ 0) :
    ∃ b2 cp, generate_constant_turn_until_facing_point ops s g t nrm b r 1 =
      generate_constant_turn ops s t nrm b2 cp r := by
  have hinner := gctufp_body_delegates ops s g t nrm (!b) r none nvi hifi hnvi hdeti hsq hxi
  rcases hinner with ⟨cpi, hi⟩ | ⟨res, hres, _⟩
  · have houter := gctufp_body_delegates ops s g t nrm b r
      (some (gctufp_body ops s g t nrm (!b) r none)) nvo hifo hnvo hdeto hsq hxo
    rcases houter with ⟨cp, h⟩ | ⟨res, hres, hbody⟩
    · refine ⟨b, cp, ?_⟩
      show gctufp_body ops s g t nrm b r
        (some (gctufp_body ops s g t nrm (!b) r none)) = _
      exact h
    · refine ⟨!b, cpi, ?_⟩
      show gctufp_body ops s g t nrm b r
        (some (gctufp_body ops s g t nrm (!b) r none)) = _
      injection hres with hres2
      rw [hbody, ← hres2, hi]
  · exact absurd hres (by simp)

/-- C9 (amended): when the tangent and normal are unit and perpendicular and
the goal is at nonzero distance from both candidate circle centers, the
solver raises no error of its own — the clamp keeps the `acos` argument in
`[-1, 1]` and the call reduces to a single delegation to
`generate_constant_turn` (possibly with the turn direction flipped by the
one bounded retry); but when the goal coincides with the computed circle
center, the division `radius / x` raises `ZeroDivisionError`
(`gctufp_goal_at_center_raises`). -/
theorem gctufp_clamped_delegates (ops : RealOps) (s g t nrm : Pt) (b : Bool) (r : ℚ)
    (ht : t.1 * t.1 + t.2 * t.2 = 1)
    (hn : nrm.1 * nrm.1 + nrm.2 * nrm.2 = 1)
    (htn : t.1 * nrm.1 + t.2 * nrm.2 = 0)
    (hsq : ops.sqrtq 1 = 1)
    (hx1 : magnitude ops (vsub g (s.1 + r * nrm.1, s.2 + r * nrm.2)) ≠ 0)
    (hx2 : magnitude ops (vsub g (s.1 + r * (-nrm.1), s.2 + r * (-nrm.2))) ≠ 0) :
    ∃ b2 cp, generate_constant_turn_until_facing_point ops s g t nrm b r 1 =
      generate_constant_turn ops s t nrm b2 cp r := by
  have hdet1 : t.1 * nrm.2 - t.2 * nrm.1 ≠ 0 := by
    intro h0
    have hsum : (t.1 * nrm.2 - t.2 * nrm.1) ^ 2 + (t.1 * nrm.1 + t.2 * nrm.2) ^ 2 =
        (t.1 * t.1 + t.2 * t.2) * (nrm.1 * nrm.1 + nrm.2 * nrm.2) := by ring
    rw [h0, htn, ht, hn] at hsum
    norm_num at hsum
  have hdet2 : t.1 * -nrm.2 - t.2 * -nrm.1 ≠ 0 := fun h0 => hdet1 (by linarith)
  have hn2 : -nrm.1 * -nrm.1 + -nrm.2 * -nrm.2 = 1 := by linear_combination hn
  cases b with
  | false =>
      exact gctufp_fuel1_delegates_aux ops s g t nrm false r nrm (-nrm.1, -nrm.2)
        rfl rfl hn hn2 hdet1 hdet2 hsq hx1 hx2
  | true =>
      exact gctufp_fuel1_delegates_aux ops s g t nrm true r (-nrm.1, -nrm.2) nrm
        rfl rfl hn2 hn hdet2 hdet1 hsq hx2 hx1

/-- Witness for the amended C9 theorem: start `(0,0)`, tangent `(1,0)`,
normal `(0,1)`, radius `10`, goal `(100,0)`; both candidate centers
`(0, ±10)` are at nonzero distance from the goal. -/
theorem gctufp_clamped_delegates_witness :
    ((1:ℚ) * 1 + 0 * 0 = 1) ∧ ((0:ℚ) * 0 + 1 * 1 = 1) ∧ ((1:ℚ) * 0 + 0 * 1 = 0) ∧
    ops_sqrt0.sqrtq 1 = 1 ∧
    magnitude ops_sqrt0 (vsub (100, 0) ((0:ℚ) + 10 * 0, (0:ℚ) + 10 * 1)) ≠ 0 ∧
    magnitude ops_sqrt0 (vsub (100, 0) ((0:ℚ) + 10 * (-0), (0:ℚ) + 10 * (-1))) ≠ 0 ∧
    (∃ b2 cp,
      generate_constant_turn_until_facing_point ops_sqrt0 (0, 0) (100, 0) (1, 0) (0, 1)
        false 10 1 = generate_constant_turn ops_sqrt0 (0, 0) (1, 0) (0, 1) b2 cp 10) := by
  refine ⟨by norm_num, by norm_num, by norm_num, by norm_num [ops_sqrt0], ?_, ?_, ?_⟩
  · norm_num [magnitude, vsub, ops_sqrt0]
  · norm_num [magnitude, vsub, ops_sqrt0]
  · exact gctufp_clamped_delegates ops_sqrt0 (0, 0) (100, 0) (1, 0) (0, 1) false 10
      (by norm_num) (by norm_num) (by norm_num) (by norm_num [ops_sqrt0])
      (by norm_num [magnitude, vsub, ops_sqrt0])
      (by norm_num [magnitude, vsub, ops_sqrt0])

end TrackGen





